import Mathlib

/-!
Verification of the recurring-task and reminder engine of the multi-phase
todo application (phases 02 through 04 of the repository).

The Python services are shallowly embedded as pure Lean functions over an
explicit database value.  Conventions used throughout:

* a calendar date is a `Nat`: the number of days since 1970-01-01;
* a UTC instant is an `Int`: the number of minutes since 1970-01-01T00:00Z;
* the enumeration of an RFC 5545 RRULE performed by the external
  `dateutil` library is passed in as a `List Date` (its stream of dates for
  the given rule and anchor); `dateutil` guarantees this stream is strictly
  increasing, which appears as an explicit hypothesis where needed;
* an IANA timezone resolved by the external `zoneinfo` library is modelled
  as a fixed UTC offset in minutes, `Option Int`, where `none` stands for a
  string that `ZoneInfo` rejects;
* the random nanoid primary-key generator is passed in as an explicit
  supply of fresh identifiers;
* the Web Push transport is passed in as a function from subscription to
  delivery outcome, covering success, a `WebPushException` carrying an
  optional HTTP status, and any other exception.
-/

/-- Calendar date as a day ordinal (days since 1970-01-01). -/
abbrev Date := Nat

/-- UTC instant in minutes since 1970-01-01T00:00Z. -/
abbrev Instant := Int

/-- Status of an occurrence, from `app/models/enums.py` (`OccurrenceStatus`). -/
inductive OccurrenceStatus where
  | pending
  | completed
  | skipped
deriving DecidableEq, Repr

/-- Status of a reminder, from `app/models/enums.py` (`ReminderStatus`). -/
inductive ReminderStatus where
  | pending
  | sent
  | snoozed
  | cancelled
deriving DecidableEq, Repr

/-- Kind of a notification, from `app/models/enums.py` (`NotificationType`). -/
inductive NotificationType where
  | reminder
  | daily_digest
  | recurring_due
deriving DecidableEq, Repr

/-- Priority of a todo, from `app/models/priority.py`. -/
inductive Priority where
  | high
  | medium
  | low
deriving DecidableEq, Repr

/-- Day number (UTC) of an instant. -/
def instantDay (t : Instant) : Int := Int.ediv t 1440

/-- Hour of day (UTC) of an instant. -/
def instantHour (t : Instant) : Int := Int.ediv (Int.emod t 1440) 60

/-- First instant of the UTC day containing `t`. -/
def startOfUtcDay (t : Instant) : Instant := instantDay t * 1440

/-! ## Recurrence evaluator (`app/services/recurrence.py`)

`RecurrenceService.generate_occurrences` builds a rule with `rrulestr`,
then runs

    for dt in rule:
        if dt.date() > window_end: break
        if dt.date() >= window_start: occurrences.append(dt.date())
        if len(occurrences) >= max_occurrences: break

`generateOccurrencesLoop` is that loop; `ruleDates` stands for the stream
of dates `dateutil` enumerates for the rule, and `cnt` is the number of
dates collected so far. -/

def generateOccurrencesLoop (windowStart windowEnd : Date) (maxOccurrences : Nat) :
    List Date → Nat → List Date
  | [], _ => []
  | d :: rest, cnt =>
      if windowEnd < d then []
      else if windowStart ≤ d then
        if maxOccurrences ≤ cnt + 1 then [d]
        else d :: generateOccurrencesLoop windowStart windowEnd maxOccurrences rest (cnt + 1)
      else if maxOccurrences ≤ cnt then []
      else generateOccurrencesLoop windowStart windowEnd maxOccurrences rest cnt

/-- Source `RecurrenceService.generate_occurrences` with every argument explicit. -/
def generate_occurrences (ruleDates : List Date) (windowStart windowEnd : Date)
    (maxOccurrences : Nat) : List Date :=
  generateOccurrencesLoop windowStart windowEnd maxOccurrences ruleDates 0

/-- Source `RecurrenceService.generate_occurrences` with the source defaults filled
in: `window_start = start_date`, `window_end = window_start + 30 days`, and
`max_occurrences = 30`. -/
def generate_occurrences_with_defaults (ruleDates : List Date) (startDate : Date) : List Date :=
  generate_occurrences ruleDates startDate (startDate + 30) 30

/-- Source `RecurrenceService.get_next_occurrence`: a window of 365 days after
`afterDate` with `max_occurrences = 1`, returning the head of the result. -/
def get_next_occurrence (ruleDates : List Date) (afterDate : Date) : Option Date :=
  (generate_occurrences ruleDates afterDate (afterDate + 365) 1).head?

example : generate_occurrences [0, 2, 4, 6, 8, 10] 3 9 30 = [4, 6, 8] := by decide
example : generate_occurrences [0, 2, 4, 6, 8, 10] 0 100 2 = [0, 2] := by decide
example : generate_occurrences [5] 0 10 0 = [5] := by decide
example : get_next_occurrence [10, 20] 10 = some 10 := by decide
example : get_next_occurrence [400] 0 = none := by decide

/-! Basic facts about the enumeration loop. -/

theorem generateOccurrencesLoop_sublist (ws we maxO : Nat) :
    ∀ (l : List Date) (cnt : Nat), List.Sublist (generateOccurrencesLoop ws we maxO l cnt) l := by
  intro l
  induction l with
  | nil => intro cnt; simp [generateOccurrencesLoop]
  | cons d rest ih =>
      intro cnt
      simp only [generateOccurrencesLoop]
      by_cases h1 : we < d
      · simp [h1]
      · simp only [h1, if_false]
        by_cases h2 : ws ≤ d
        · simp only [h2, if_true]
          by_cases h3 : maxO ≤ cnt + 1
          · simp only [h3, if_true]
            exact (List.nil_sublist rest).cons₂ d
          · simp only [h3, if_false]
            exact (ih (cnt + 1)).cons₂ d
        · simp only [h2, if_false]
          by_cases h3 : maxO ≤ cnt
          · simp [h3]
          · simp only [h3, if_false]
            exact (ih cnt).cons d

theorem generateOccurrencesLoop_mem_bounds (ws we maxO : Nat) :
    ∀ (l : List Date) (cnt : Nat) (x : Date),
      x ∈ generateOccurrencesLoop ws we maxO l cnt → ws ≤ x ∧ x ≤ we := by
  intro l
  induction l with
  | nil => intro cnt x hx; simp [generateOccurrencesLoop] at hx
  | cons d rest ih =>
      intro cnt x hx
      simp only [generateOccurrencesLoop] at hx
      by_cases h1 : we < d
      · simp [h1] at hx
      · simp only [h1, if_false] at hx
        by_cases h2 : ws ≤ d
        · simp only [h2, if_true] at hx
          by_cases h3 : maxO ≤ cnt + 1
          · simp only [h3, if_true, List.mem_singleton] at hx
            subst hx
            exact ⟨h2, Nat.le_of_not_lt h1⟩
          · simp only [h3, if_false, List.mem_cons] at hx
            rcases hx with rfl | hx
            · exact ⟨h2, Nat.le_of_not_lt h1⟩
            · exact ih (cnt + 1) x hx
        · simp only [h2, if_false] at hx
          by_cases h3 : maxO ≤ cnt
          · simp [h3] at hx
          · simp only [h3, if_false] at hx
            exact ih cnt x hx

theorem generateOccurrencesLoop_length (ws we maxO : Nat) :
    ∀ (l : List Date) (cnt : Nat), cnt < maxO →
      (generateOccurrencesLoop ws we maxO l cnt).length + cnt ≤ maxO := by
  intro l
  induction l with
  | nil => intro cnt h; simpa [generateOccurrencesLoop] using Nat.le_of_lt h
  | cons d rest ih =>
      intro cnt h
      simp only [generateOccurrencesLoop]
      by_cases h1 : we < d
      · simpa [h1] using Nat.le_of_lt h
      · simp only [h1, if_false]
        by_cases h2 : ws ≤ d
        · simp only [h2, if_true]
          by_cases h3 : maxO ≤ cnt + 1
          · simp only [h3, if_true, List.length_singleton]
            omega
          · simp only [h3, if_false, List.length_cons]
            have := ih (cnt + 1) (Nat.lt_of_not_le h3)
            omega
        · simp only [h2, if_false]
          by_cases h3 : maxO ≤ cnt
          · simpa [h3] using Nat.le_of_lt h
          · simp only [h3, if_false]
            exact ih cnt h

theorem generateOccurrencesLoop_head_min (ws we maxO : Nat) :
    ∀ (l : List Date) (cnt : Nat) (d : Date) (t : List Date),
      List.Pairwise (· ≤ ·) l →
      generateOccurrencesLoop ws we maxO l cnt = d :: t →
      ∀ x ∈ l, ws ≤ x → d ≤ x := by
  intro l
  induction l with
  | nil => intro cnt d t _ h; simp [generateOccurrencesLoop] at h
  | cons a rest ih =>
      intro cnt d t hp h x hx hwx
      simp only [generateOccurrencesLoop] at h
      rcases List.pairwise_cons.mp hp with ⟨ha, hrest⟩
      by_cases h1 : we < a
      · simp [h1] at h
      · simp only [h1, if_false] at h
        by_cases h2 : ws ≤ a
        · simp only [h2, if_true] at h
          have hd : d = a := by
            by_cases h3 : maxO ≤ cnt + 1
            · simp [h3] at h; exact h.1.symm
            · simp [h3] at h; exact h.1.symm
          subst hd
          rcases List.mem_cons.mp hx with rfl | hx
          · exact Nat.le_refl _
          · exact ha x hx
        · simp only [h2, if_false] at h
          by_cases h3 : maxO ≤ cnt
          · simp [h3] at h
          · simp only [h3, if_false] at h
            rcases List.mem_cons.mp hx with rfl | hx
            · exact absurd hwx h2
            · exact ih cnt d t hrest h x hx hwx

theorem generateOccurrencesLoop_eq_nil (ws we maxO : Nat) :
    ∀ (l : List Date) (cnt : Nat),
      List.Pairwise (· ≤ ·) l →
      cnt < maxO →
      generateOccurrencesLoop ws we maxO l cnt = [] →
      ∀ x ∈ l, ws ≤ x → we < x := by
  intro l
  induction l with
  | nil => intro cnt _ _ _ x hx; simp at hx
  | cons a rest ih =>
      intro cnt hp hc h x hx hwx
      simp only [generateOccurrencesLoop] at h
      rcases List.pairwise_cons.mp hp with ⟨ha, hrest⟩
      by_cases h1 : we < a
      · rcases List.mem_cons.mp hx with rfl | hx
        · exact h1
        · exact Nat.lt_of_lt_of_le h1 (ha x hx)
      · simp only [h1, if_false] at h
        by_cases h2 : ws ≤ a
        · by_cases h3 : maxO ≤ cnt + 1
          · simp [h2, h3] at h
          · simp [h2, h3] at h
        · simp only [h2, if_false] at h
          have h3 : ¬ maxO ≤ cnt := Nat.not_le_of_lt hc
          simp only [h3, if_false] at h
          rcases List.mem_cons.mp hx with rfl | hx
          · exact absurd hwx h2
          · exact ih cnt hrest hc h x hx hwx

/-- C4.  `generate_occurrences` keeps the window, keeps the order of the rule
stream, and respects the cap whenever the cap is at least 1; the version with
no explicit arguments uses a cap of 30 and a 30-day window.  (The cap clause
needs `1 ≤ cap`: with a cap of 0 the loop appends the first in-window date
before checking the cap, see the counterexample.) -/
theorem generate_occurrences_window_sorted_capped
    (ruleDates : List Date) (ws we cap : Nat) (startDate : Date) :
    (List.Pairwise (· ≤ ·) ruleDates →
      List.Pairwise (· ≤ ·) (generate_occurrences ruleDates ws we cap)) ∧
    (∀ x ∈ generate_occurrences ruleDates ws we cap, ws ≤ x ∧ x ≤ we) ∧
    (1 ≤ cap → (generate_occurrences ruleDates ws we cap).length ≤ cap) ∧
    generate_occurrences_with_defaults ruleDates startDate
      = generate_occurrences ruleDates startDate (startDate + 30) 30 := by
  refine ⟨?_, ?_, ?_, rfl⟩
  · intro hp
    exact List.Pairwise.sublist (generateOccurrencesLoop_sublist ws we cap ruleDates 0) hp
  · intro x hx
    exact generateOccurrencesLoop_mem_bounds ws we cap ruleDates 0 x hx
  · intro hcap
    simpa using generateOccurrencesLoop_length ws we cap ruleDates 0 hcap

/-- C4 witness: the theorem applied to the weekly-style stream
`[0, 2, 4, 6, 8, 10]` with window `[3, 9]` and cap 30. -/
theorem generate_occurrences_window_sorted_capped_witness :
    List.Pairwise (· ≤ ·) (generate_occurrences [0, 2, 4, 6, 8, 10] 3 9 30) ∧
    (∀ x ∈ generate_occurrences [0, 2, 4, 6, 8, 10] 3 9 30, 3 ≤ x ∧ x ≤ 9) ∧
    (generate_occurrences [0, 2, 4, 6, 8, 10] 3 9 30).length ≤ 30 := by
  obtain ⟨h1, h2, h3, _⟩ :=
    generate_occurrences_window_sorted_capped [0, 2, 4, 6, 8, 10] 3 9 30 3
  exact ⟨h1 (by decide), h2, h3 (by decide)⟩

/-- C4 counterexample: with a cap of 0 the enumeration still returns one
date, so the claimed bound "at most cap entries" fails for cap = 0. -/
theorem generate_occurrences_cap_zero_counterexample :
    generate_occurrences [5] 0 10 0 = [5] ∧
    ¬ (generate_occurrences [5] 0 10 0).length ≤ 0 := by
  decide

/-- C5 counterexample: an occurrence falling exactly on the reference date is
returned by `get_next_occurrence`, so "strictly after" fails. -/
theorem get_next_occurrence_not_strict_counterexample :
    get_next_occurrence [10] 10 = some 10 ∧ ¬ 10 < 10 := by
  decide

/-- C5 amended.  For a rule stream in non-decreasing order,
`get_next_occurrence` returns the smallest occurrence at or after the
reference date (not strictly after it), and it searches only 365 days past
the reference date: it returns `none` exactly when every occurrence at or
after the reference date lies beyond that window. -/
theorem get_next_occurrence_smallest_at_or_after
    (ruleDates : List Date) (afterDate : Date)
    (hp : List.Pairwise (· ≤ ·) ruleDates) :
    (∀ d, get_next_occurrence ruleDates afterDate = some d →
      afterDate ≤ d ∧ d ≤ afterDate + 365 ∧ d ∈ ruleDates ∧
      ∀ x ∈ ruleDates, afterDate ≤ x → d ≤ x) ∧
    (get_next_occurrence ruleDates afterDate = none →
      ∀ x ∈ ruleDates, afterDate ≤ x → afterDate + 365 < x) := by
  constructor
  · intro d hd
    unfold get_next_occurrence at hd
    rcases hres : generate_occurrences ruleDates afterDate (afterDate + 365) 1 with _ | ⟨d0, t⟩
    · rw [hres] at hd; simp at hd
    · rw [hres] at hd
      simp only [List.head?_cons, Option.some.injEq] at hd
      subst hd
      have hmem : d0 ∈ generate_occurrences ruleDates afterDate (afterDate + 365) 1 := by
        rw [hres]; exact List.mem_cons_self d0 t
      have hbounds :=
        generateOccurrencesLoop_mem_bounds afterDate (afterDate + 365) 1 ruleDates 0 d0 hmem
      refine ⟨hbounds.1, hbounds.2, ?_, ?_⟩
      · exact (generateOccurrencesLoop_sublist afterDate (afterDate + 365) 1 ruleDates 0).mem hmem
      · exact generateOccurrencesLoop_head_min afterDate (afterDate + 365) 1 ruleDates 0 d0 t hp hres
  · intro hnone x hx hax
    unfold get_next_occurrence at hnone
    rcases hres : generate_occurrences ruleDates afterDate (afterDate + 365) 1 with _ | ⟨d0, t⟩
    · exact generateOccurrencesLoop_eq_nil afterDate (afterDate + 365) 1 ruleDates 0 hp
        (by decide) hres x hx hax
    · rw [hres] at hnone; simp at hnone

/-- C5 witness: the amended theorem applied to the stream `[3, 8, 500]` with
reference date 4: the result is 8, the smallest stream element at or after 4
inside the 365-day search window. -/
theorem get_next_occurrence_smallest_at_or_after_witness :
    get_next_occurrence [3, 8, 500] 4 = some 8 ∧
    (4 ≤ 8 ∧ 8 ≤ 4 + 365 ∧ 8 ∈ [3, 8, 500] ∧ ∀ x ∈ [3, 8, 500], 4 ≤ x → 8 ≤ x) := by
  have h := (get_next_occurrence_smallest_at_or_after [3, 8, 500] 4 (by decide)).1 8 (by decide)
  exact ⟨by decide, h⟩

/-! ## Data model (`app/models/...`)

The rows of the database tables, with dates and instants as above.  The
`Notification` table also has a nanoid primary key in the source; no claim
refers to it, and notifications are only ever appended, so the key column
is not carried here. -/

structure Todo where
  id : String
  title : String
  description : Option String
  completed : Bool
  user_id : String
  due_date : Option Date
  priority : Option Priority
  is_recurring : Bool
  rrule : Option String
  recurrence_end_date : Option Date
  recurrence_count : Option Nat
  occurrences_generated : Nat
  created_at : Instant
  updated_at : Instant
deriving DecidableEq, Repr

structure TodoOccurrence where
  id : String
  parent_todo_id : String
  user_id : String
  occurrence_date : Date
  status : OccurrenceStatus
  completed_at : Option Instant
  created_at : Instant
  updated_at : Instant
deriving DecidableEq, Repr

structure Reminder where
  id : String
  todo_id : String
  occurrence_id : Option String
  user_id : String
  fire_at : Instant
  offset_minutes : Option Int
  status : ReminderStatus
  sent_at : Option Instant
  snoozed_until : Option Instant
  created_at : Instant
deriving DecidableEq, Repr

structure Notification where
  user_id : String
  type : NotificationType
  title : String
  body : String
  todo_id : Option String
  reminder_id : Option String
  read : Bool
  created_at : Instant
deriving DecidableEq, Repr

structure PushSubscription where
  id : String
  user_id : String
  endpoint : String
  p256dh_key : String
  auth_key : String
  user_agent : Option String
  created_at : Instant
  last_used_at : Option Instant
deriving DecidableEq, Repr

structure Tag where
  id : String
  user_id : String
  name : String
deriving DecidableEq, Repr

structure TodoTag where
  todo_id : String
  tag_id : String
deriving DecidableEq, Repr

structure UserPreferences where
  user_id : String
  timezone : Option Int
  default_reminder_offset : Option Int
  push_enabled : Bool
  daily_digest_enabled : Bool
  daily_digest_time : Option Int
deriving DecidableEq, Repr

/-- The whole relational store. -/
structure DB where
  todos : List Todo
  occurrences : List TodoOccurrence
  reminders : List Reminder
  notifications : List Notification
  subscriptions : List PushSubscription
  tags : List Tag
  todo_tags : List TodoTag
deriving DecidableEq, Repr

/-- The external `dateutil` enumeration: RRULE string and `dtstart` date to
the stream of dates the rule produces. -/
abbrev RuleEval := String → Date → List Date

/-! ## Occurrence top-up (`TodoService._generate_occurrences`)

Loads the existing occurrence dates of the series into a set, enumerates the
rule over `[start_date, start_date + 30]`, inserts a pending occurrence for
every enumerated date not already present, and bumps the owning row of
`occurrences_generated` when anything was inserted.  `freshId` supplies the
nanoid primary keys of inserted rows, indexed by occurrence date. -/

def todoBumpGenerated (todos : List Todo) (todo_id : String) (created : Nat) : List Todo :=
  todos.map fun t =>
    if t.id == todo_id then {t with occurrences_generated := t.occurrences_generated + created}
    else t

def generateOccurrencesForTodo (ruleEval : RuleEval) (freshId : Date → String) (now : Instant)
    (db : DB) (user_id todo_id : String) (rrule : String) (startDate : Date)
    (maxOccurrences : Nat) : DB × Nat :=
  let existingDates :=
    (db.occurrences.filter fun o => o.parent_todo_id == todo_id).map (·.occurrence_date)
  let occurrenceDates :=
    generate_occurrences (ruleEval rrule startDate) startDate (startDate + 30) maxOccurrences
  let newDates := occurrenceDates.filter fun d => decide (d ∉ existingDates)
  let newOccs : List TodoOccurrence := newDates.map fun d =>
    { id := freshId d
      parent_todo_id := todo_id
      user_id := user_id
      occurrence_date := d
      status := .pending
      completed_at := none
      created_at := now
      updated_at := now }
  let created := newOccs.length
  let todos1 := if 0 < created then todoBumpGenerated db.todos todo_id created else db.todos
  ({ db with todos := todos1, occurrences := db.occurrences ++ newOccs }, created)

/-- The (series, date) key guarded by the unique constraint
`uq_occurrence_date` on `todo_occurrences`. -/
def occurrenceKey (o : TodoOccurrence) : String × Date :=
  (o.parent_todo_id, o.occurrence_date)

theorem filter_not_mem_append_eq_nil (dates existing1 extra : List Date)
    (hextra : ∀ d ∈ dates, d ∉ existing1 → d ∈ extra) :
    dates.filter (fun d => decide (d ∉ (existing1 ++ extra))) = [] := by
  rw [List.filter_eq_nil_iff]
  intro d hd
  simp only [decide_eq_true_eq, not_not, List.mem_append]
  by_cases h : d ∈ existing1
  · exact Or.inl h
  · exact Or.inr (hextra d hd h)

theorem generateOccurrencesForTodo_nothing_new (ruleEval : RuleEval) (freshId : Date → String)
    (now : Instant) (db : DB) (uid tid rrule : String) (sd : Date) (maxo : Nat)
    (h : (generate_occurrences (ruleEval rrule sd) sd (sd + 30) maxo).filter
        (fun d => decide (d ∉
          (db.occurrences.filter fun o => o.parent_todo_id == tid).map (·.occurrence_date)))
      = []) :
    generateOccurrencesForTodo ruleEval freshId now db uid tid rrule sd maxo = (db, 0) := by
  simp only [generateOccurrencesForTodo, h, List.map_nil, List.length_nil, Nat.lt_irrefl,
    if_false, List.append_nil]

/-- C3.  Topping up the occurrence window of a series is idempotent and
never creates a duplicate (series, date) pair: (1) running
`_generate_occurrences` a second time with the same arguments inserts
nothing and leaves the store untouched, whatever fresh keys and clock the
two runs see; (2) when the rule stream is strictly increasing, the
uniqueness of the (parent todo, occurrence date) key is preserved; (3)
every row of the result is either an old row or a new pending row of this
series whose date was not present for the series before. -/
theorem top_up_idempotent_no_duplicates (ruleEval : RuleEval) (f1 f2 : Date → String)
    (now1 now2 : Instant) (db : DB) (uid tid rrule : String) (sd : Date) (maxo : Nat) :
    generateOccurrencesForTodo ruleEval f2 now2
        (generateOccurrencesForTodo ruleEval f1 now1 db uid tid rrule sd maxo).1
        uid tid rrule sd maxo
      = ((generateOccurrencesForTodo ruleEval f1 now1 db uid tid rrule sd maxo).1, 0) ∧
    (List.Pairwise (· < ·) (ruleEval rrule sd) →
      (db.occurrences.map occurrenceKey).Nodup →
      (((generateOccurrencesForTodo ruleEval f1 now1 db uid tid rrule sd maxo).1).occurrences.map
          occurrenceKey).Nodup) ∧
    (∀ o ∈ ((generateOccurrencesForTodo ruleEval f1 now1 db uid tid rrule sd maxo).1).occurrences,
      o ∈ db.occurrences ∨
        (o.parent_todo_id = tid ∧ o.status = OccurrenceStatus.pending ∧
          ∀ o0 ∈ db.occurrences, o0.parent_todo_id = tid →
            o0.occurrence_date ≠ o.occurrence_date)) := by
  set dates := generate_occurrences (ruleEval rrule sd) sd (sd + 30) maxo with hdates
  set existing1 :=
    (db.occurrences.filter fun o => o.parent_todo_id == tid).map (·.occurrence_date)
    with hex1
  set newDates1 := dates.filter fun d => decide (d ∉ existing1) with hnew1
  set newOccs1 : List TodoOccurrence := newDates1.map (fun d =>
    { id := f1 d
      parent_todo_id := tid
      user_id := uid
      occurrence_date := d
      status := .pending
      completed_at := none
      created_at := now1
      updated_at := now1 }) with hoccs1
  have hdb1occ :
      ((generateOccurrencesForTodo ruleEval f1 now1 db uid tid rrule sd maxo).1).occurrences
        = db.occurrences ++ newOccs1 := rfl
  have hdate1 : ∀ o ∈ newOccs1, o.parent_todo_id = tid ∧ o.status = OccurrenceStatus.pending ∧
      o.occurrence_date ∈ newDates1 := by
    intro o ho
    rw [hoccs1, List.mem_map] at ho
    obtain ⟨d, hd, rfl⟩ := ho
    exact ⟨rfl, rfl, hd⟩
  have hnotold : ∀ d ∈ newDates1, d ∉ existing1 := by
    intro d hd
    rw [hnew1, List.mem_filter] at hd
    simpa using hd.2
  refine ⟨?_, ?_, ?_⟩
  · -- second run inserts nothing
    have hfilter2 :
        (((db.occurrences ++ newOccs1).filter fun o => o.parent_todo_id == tid).map
            (·.occurrence_date))
          = existing1 ++ newDates1 := by
      rw [List.filter_append, List.map_append, hex1]
      congr 1
      have hkeep : newOccs1.filter (fun o => o.parent_todo_id == tid) = newOccs1 := by
        rw [List.filter_eq_self]
        intro o ho
        simp [(hdate1 o ho).1]
      rw [hkeep, hoccs1, List.map_map]
      exact List.map_id newDates1
    have hnil : dates.filter (fun d => decide (d ∉ (existing1 ++ newDates1))) = [] := by
      apply filter_not_mem_append_eq_nil
      intro d hd hne
      rw [hnew1, List.mem_filter]
      exact ⟨hd, by simpa using hne⟩
    apply generateOccurrencesForTodo_nothing_new
    simp only [hdb1occ, hfilter2, ← hdates]
    exact hnil
  · -- key uniqueness is preserved
    intro hrule hnodup
    rw [hdb1occ, List.map_append, List.nodup_append]
    refine ⟨hnodup, ?_, ?_⟩
    · have hdatesnd : dates.Nodup := by
        have hsub := generateOccurrencesLoop_sublist sd (sd + 30) maxo (ruleEval rrule sd) 0
        exact (List.Pairwise.imp (fun h => Nat.ne_of_lt h) hrule).sublist hsub
      have hnd : newDates1.Nodup := hdatesnd.filter _
      rw [hoccs1, List.map_map]
      refine hnd.map ?_
      intro a b hab
      simpa [occurrenceKey] using hab
    · intro k hk1 hk2
      rw [hoccs1, List.map_map] at hk2
      rw [List.mem_map] at hk1 hk2
      obtain ⟨o0, ho0, hko⟩ := hk1
      obtain ⟨d, hd, hkd⟩ := hk2
      have hpar : o0.parent_todo_id = tid := by
        have := hko.trans hkd.symm
        simpa [occurrenceKey] using congrArg Prod.fst this
      have hdate : o0.occurrence_date = d := by
        have := hko.trans hkd.symm
        simpa [occurrenceKey] using congrArg Prod.snd this
      apply hnotold d hd
      rw [hex1, List.mem_map]
      refine ⟨o0, ?_, hdate⟩
      rw [List.mem_filter]
      exact ⟨ho0, by simp [hpar]⟩
  · -- every result row is old, or new for this series on a fresh date
    intro o ho
    rw [hdb1occ, List.mem_append] at ho
    rcases ho with ho | ho
    · exact Or.inl ho
    · right
      obtain ⟨hpar, hst, hdmem⟩ := hdate1 o ho
      refine ⟨hpar, hst, ?_⟩
      intro o0 ho0 hpar0 hdate0
      apply hnotold _ hdmem
      rw [hex1, List.mem_map]
      refine ⟨o0, ?_, hdate0⟩
      rw [List.mem_filter]
      exact ⟨ho0, by simp [hpar0]⟩

/-- C3 witness: the theorem applied to a daily rule stream `[1, 2, 3]` on a
store that already holds the date-2 occurrence of the series: the run adds
dates 1 and 3 only, running it again adds nothing, and the (series, date)
keys stay unique. -/
theorem top_up_idempotent_no_duplicates_witness :
    (let db0 : DB :=
      { todos := [], occurrences :=
          [{ id := "o2", parent_todo_id := "t1", user_id := "u1", occurrence_date := 2,
             status := .pending, completed_at := none, created_at := 0, updated_at := 0 }],
        reminders := [], notifications := [], subscriptions := [], tags := [], todo_tags := [] }
     let step1 := (generateOccurrencesForTodo (fun _ _ => [1, 2, 3]) (fun d => toString d) 0
        db0 "u1" "t1" "FREQ=DAILY" 1 30).1
     generateOccurrencesForTodo (fun _ _ => [1, 2, 3]) (fun d => toString d) 5
        step1 "u1" "t1" "FREQ=DAILY" 1 30 = (step1, 0) ∧
      (step1.occurrences.map occurrenceKey).Nodup) := by
  refine ⟨(top_up_idempotent_no_duplicates (fun _ _ => [1, 2, 3]) (fun d => toString d)
      (fun d => toString d) 0 5 _ "u1" "t1" "FREQ=DAILY" 1 30).1, ?_⟩
  exact (top_up_idempotent_no_duplicates (fun _ _ => [1, 2, 3]) (fun d => toString d)
      (fun d => toString d) 0 5 _ "u1" "t1" "FREQ=DAILY" 1 30).2.1 (by decide) (by decide)

/-! ## Push transport (`app/services/push.py`)

`PushService.send_push_notification` wraps the external `pywebpush` call in
`try`/`except`: it catches `WebPushException` (whose optional HTTP response
status decides whether the subscription is pruned) and every other
exception, so the call itself never raises.  The transport is modelled as a
function from subscription to outcome. -/

structure PushConfig where
  vapid_public_key : Option String
  vapid_private_key : Option String
  vapid_claims_email : Option String
deriving DecidableEq, Repr

/-- Source `PushService.is_configured`: all three VAPID settings present. -/
def is_configured (cfg : PushConfig) : Bool :=
  cfg.vapid_public_key.isSome && cfg.vapid_private_key.isSome && cfg.vapid_claims_email.isSome

/-- Outcome of one `webpush(...)` call. -/
inductive PushAttemptOutcome where
  | delivered
  | webPushError (status : Option Nat)
  | otherException
deriving DecidableEq, Repr

/-- Source `PushService.send_push_notification`. -/
def send_push_notification (cfg : PushConfig) (attempt : PushSubscription → PushAttemptOutcome)
    (now : Instant) (db : DB) (sub : PushSubscription) : DB × Bool :=
  if ¬ is_configured cfg then (db, false)
  else
    match attempt sub with
    | .delivered =>
        ({ db with subscriptions := db.subscriptions.map fun s =>
            if s.id == sub.id then { s with last_used_at := some now } else s }, true)
    | .webPushError st =>
        if st == some 410 then
          ({ db with subscriptions := db.subscriptions.filter fun s => !(s.id == sub.id) },
            false)
        else (db, false)
    | .otherException => (db, false)

/-- Source `PushService.get_user_subscriptions`. -/
def get_user_subscriptions (db : DB) (user_id : String) : List PushSubscription :=
  db.subscriptions.filter (·.user_id == user_id)

/-- Source `PushService.send_to_user`: one attempt per subscription of the user,
counting successes. -/
def send_to_user (cfg : PushConfig) (attempt : PushSubscription → PushAttemptOutcome)
    (now : Instant) (db : DB) (user_id : String) : DB × Nat :=
  (get_user_subscriptions db user_id).foldl
    (fun acc sub =>
      let p := send_push_notification cfg attempt now acc.1 sub
      (p.1, acc.2 + if p.2 then 1 else 0))
    (db, 0)

/-- Source `NotificationService.create_notification`. -/
def create_notification (now : Instant) (db : DB) (user_id : String) (ntype : NotificationType)
    (title body : String) (todo_id reminder_id : Option String) : DB :=
  { db with notifications := db.notifications ++
      [{ user_id := user_id, type := ntype, title := title, body := body,
         todo_id := todo_id, reminder_id := reminder_id, read := false, created_at := now }] }

/-! ## Date formatting

`ReminderService.fire_reminder` renders the due date with
`strftime("%b %d, %Y")`.  The civil-date split follows the standard
days-to-date conversion on the proleptic Gregorian calendar. -/

def civilFromDays (z : Nat) : Nat × Nat × Nat :=
  let z2 := z + 719468
  let era := z2 / 146097
  let doe := z2 % 146097
  let yoe := (doe - doe / 1460 + doe / 36524 - doe / 146096) / 365
  let y := yoe + era * 400
  let doy := doe - (365 * yoe + yoe / 4 - yoe / 100)
  let mp := (5 * doy + 2) / 153
  let d := doy - (153 * mp + 2) / 5 + 1
  let m := if mp < 10 then mp + 3 else mp - 9
  (if m ≤ 2 then y + 1 else y, m, d)

def monthAbbrev (m : Nat) : String :=
  ["Jan", "Feb", "Mar", "Apr", "May", "Jun",
   "Jul", "Aug", "Sep", "Oct", "Nov", "Dec"].getD (m - 1) ""

def pad2 (n : Nat) : String :=
  if n < 10 then "0" ++ toString n else toString n

/-- Source `strftime("%b %d, %Y")` on a day ordinal. -/
def strftimeMonthDayYear (z : Date) : String :=
  let c := civilFromDays z
  monthAbbrev c.2.1 ++ " " ++ pad2 c.2.2 ++ ", " ++ toString c.1

example : strftimeMonthDayYear 20513 = "Mar 01, 2026" := by decide
example : strftimeMonthDayYear 0 = "Jan 01, 1970" := by decide

/-! ## Reminder service (`app/services/reminder.py`) -/

/-- Source `ReminderService.snooze_reminder`: looks the reminder up by id and
owner, then unconditionally sets `status = snoozed` and moves `fire_at` and
`snoozed_until` to `now + snooze_minutes`; there is no check of the current
status. -/
def snooze_reminder (now : Instant) (db : DB) (user_id reminder_id : String)
    (snooze_minutes : Int) : DB × Option Reminder :=
  match db.reminders.find? (fun r => r.id == reminder_id && r.user_id == user_id) with
  | none => (db, none)
  | some r =>
      let r1 := { r with status := .snoozed,
                         snoozed_until := some (now + snooze_minutes),
                         fire_at := now + snooze_minutes }
      ({ db with reminders := db.reminders.map fun x => if x.id == r.id then r1 else x },
        some r1)

/-- Source `TodoService.update_occurrence_status`: looks the occurrence up by id
and owner, then unconditionally writes the requested status; `completed_at`
is stamped on `completed` and cleared on `pending`. -/
def update_occurrence_status (now : Instant) (db : DB) (user_id occurrence_id : String)
    (new_status : OccurrenceStatus) : DB × Option TodoOccurrence :=
  match db.occurrences.find? (fun o => o.id == occurrence_id && o.user_id == user_id) with
  | none => (db, none)
  | some o =>
      let o1 := { o with status := new_status, updated_at := now,
                         completed_at :=
                           if new_status == .completed then some now
                           else if new_status == .pending then none
                           else o.completed_at }
      ({ db with occurrences := db.occurrences.map fun x => if x.id == o.id then o1 else x },
        some o1)

/-- Insertion into a list kept ascending by `fire_at` (the dispatcher query
orders by `fire_at`). -/
def insertByFireAt (r : Reminder) : List Reminder → List Reminder
  | [] => [r]
  | x :: xs => if decide (r.fire_at ≤ x.fire_at) then r :: x :: xs else x :: insertByFireAt r xs

def sortByFireAt : List Reminder → List Reminder
  | [] => []
  | x :: xs => insertByFireAt x (sortByFireAt xs)

/-- Source `ReminderService.get_pending_reminders`: reminders with
`fire_at <= before` and status pending or snoozed, ascending by `fire_at`. -/
def get_pending_reminders (db : DB) (before : Instant) : List Reminder :=
  sortByFireAt (db.reminders.filter fun r =>
    decide (r.fire_at ≤ before) &&
      (r.status == ReminderStatus.pending || r.status == ReminderStatus.snoozed))

/-- Source `ReminderService.fire_reminder`. -/
def fire_reminder (cfg : PushConfig) (attempt : PushSubscription → PushAttemptOutcome)
    (now : Instant) (db : DB) (r : Reminder) : DB × Bool :=
  match db.todos.find? (fun t => t.id == r.todo_id) with
  | none =>
      ({ db with reminders := db.reminders.map fun x =>
          if x.id == r.id then { r with status := .cancelled } else x }, false)
  | some todo =>
      let title := "Reminder: " ++ todo.title
      let body := match todo.due_date with
        | some d => "Due: " ++ strftimeMonthDayYear d
        | none => "Task reminder"
      let db1 := create_notification now db r.user_id .reminder title body
        (some todo.id) (some r.id)
      let db2 := (send_to_user cfg attempt now db1 r.user_id).1
      ({ db2 with reminders := db2.reminders.map fun x =>
          if x.id == r.id then { r with status := .sent, sent_at := some now } else x }, true)

/-- Source `ReminderService.process_pending_reminders`: fire every due reminder,
counting the successful ones. -/
def process_pending_reminders (cfg : PushConfig)
    (attempt : PushSubscription → PushAttemptOutcome) (now : Instant) (db : DB) : DB × Nat :=
  (get_pending_reminders db now).foldl
    (fun acc r =>
      let p := fire_reminder cfg attempt now acc.1 r
      (p.1, acc.2 + if p.2 then 1 else 0))
    (db, 0)

/-- C8.  A push send never escapes to its caller (the embedding is a total
function precisely because the source catches `WebPushException` and every
other exception) and its effect on the registry is exactly: missing VAPID
configuration reports failure with no change; delivery updates the
subscription field `last_used_at`; a `WebPushException` whose response status is
410 deletes the subscription row; any other failure reports `false` and
changes nothing. -/
theorem send_push_notification_effects (cfg : PushConfig)
    (attempt : PushSubscription → PushAttemptOutcome) (now : Instant) (db : DB)
    (sub : PushSubscription) :
    (is_configured cfg = false → send_push_notification cfg attempt now db sub = (db, false)) ∧
    (is_configured cfg = true → attempt sub = .delivered →
      send_push_notification cfg attempt now db sub
        = ({ db with subscriptions := db.subscriptions.map fun s =>
              if s.id == sub.id then { s with last_used_at := some now } else s }, true)) ∧
    (is_configured cfg = true → attempt sub = .webPushError (some 410) →
      send_push_notification cfg attempt now db sub
        = ({ db with subscriptions := db.subscriptions.filter fun s => !(s.id == sub.id) },
            false)) ∧
    (is_configured cfg = true → ∀ st, attempt sub = .webPushError st → st ≠ some 410 →
      send_push_notification cfg attempt now db sub = (db, false)) ∧
    (is_configured cfg = true → attempt sub = .otherException →
      send_push_notification cfg attempt now db sub = (db, false)) := by
  refine ⟨?_, ?_, ?_, ?_, ?_⟩
  · intro hc; simp [send_push_notification, hc]
  · intro hc ha; simp [send_push_notification, hc, ha]
  · intro hc ha; simp [send_push_notification, hc, ha]
  · intro hc st ha hne; simp [send_push_notification, hc, ha, hne]
  · intro hc ha; simp [send_push_notification, hc, ha]

def pushDemoConfig : PushConfig :=
  { vapid_public_key := some "pk", vapid_private_key := some "sk",
    vapid_claims_email := some "mail" }

def pushDemoSub : PushSubscription :=
  { id := "s1", user_id := "u1", endpoint := "e1", p256dh_key := "k", auth_key := "a",
    user_agent := none, created_at := 0, last_used_at := none }

def pushDemoDB : DB :=
  { todos := [], occurrences := [], reminders := [], notifications := [],
    subscriptions := [pushDemoSub], tags := [], todo_tags := [] }

/-- C8 witness: the theorem applied to a concrete subscription under a
configured transport whose attempt reports a 410-carrying
`WebPushException`: the row is pruned and the call reports failure. -/
theorem send_push_notification_effects_witness :
    send_push_notification pushDemoConfig (fun _ => .webPushError (some 410)) 7
        pushDemoDB pushDemoSub
      = ({ pushDemoDB with subscriptions := [] }, false) := by
  have h := (send_push_notification_effects pushDemoConfig
      (fun _ => PushAttemptOutcome.webPushError (some 410)) 7 pushDemoDB pushDemoSub).2.2.1
      (by decide) rfl
  rw [h]
  decide

theorem send_push_notification_preserves (cfg : PushConfig)
    (attempt : PushSubscription → PushAttemptOutcome) (now : Instant) (db : DB)
    (sub : PushSubscription) :
    ((send_push_notification cfg attempt now db sub).1).notifications = db.notifications ∧
    ((send_push_notification cfg attempt now db sub).1).reminders = db.reminders ∧
    ((send_push_notification cfg attempt now db sub).1).todos = db.todos ∧
    ((send_push_notification cfg attempt now db sub).1).occurrences = db.occurrences := by
  by_cases hc : is_configured cfg
  · rcases ha : attempt sub with _ | st | _
    · simp [send_push_notification, hc, ha]
    · by_cases h410 : st = some 410
      · simp [send_push_notification, hc, ha, h410]
      · simp [send_push_notification, hc, ha, h410]
    · simp [send_push_notification, hc, ha]
  · simp [send_push_notification, hc]

theorem push_foldl_preserves (cfg : PushConfig)
    (attempt : PushSubscription → PushAttemptOutcome) (now : Instant) :
    ∀ (subs : List PushSubscription) (acc : DB × Nat),
      ((subs.foldl (fun acc sub =>
          let p := send_push_notification cfg attempt now acc.1 sub
          (p.1, acc.2 + if p.2 then 1 else 0)) acc).1).notifications = (acc.1).notifications ∧
      ((subs.foldl (fun acc sub =>
          let p := send_push_notification cfg attempt now acc.1 sub
          (p.1, acc.2 + if p.2 then 1 else 0)) acc).1).reminders = (acc.1).reminders ∧
      ((subs.foldl (fun acc sub =>
          let p := send_push_notification cfg attempt now acc.1 sub
          (p.1, acc.2 + if p.2 then 1 else 0)) acc).1).todos = (acc.1).todos ∧
      ((subs.foldl (fun acc sub =>
          let p := send_push_notification cfg attempt now acc.1 sub
          (p.1, acc.2 + if p.2 then 1 else 0)) acc).1).occurrences = (acc.1).occurrences := by
  intro subs
  induction subs with
  | nil => intro acc; exact ⟨rfl, rfl, rfl, rfl⟩
  | cons s rest ih =>
      intro acc
      simp only [List.foldl_cons]
      obtain ⟨h1, h2, h3, h4⟩ :=
        ih ((send_push_notification cfg attempt now acc.1 s).1,
            acc.2 + if (send_push_notification cfg attempt now acc.1 s).2 then 1 else 0)
      obtain ⟨g1, g2, g3, g4⟩ := send_push_notification_preserves cfg attempt now acc.1 s
      exact ⟨h1.trans g1, h2.trans g2, h3.trans g3, h4.trans g4⟩

theorem send_to_user_preserves (cfg : PushConfig)
    (attempt : PushSubscription → PushAttemptOutcome) (now : Instant) (db : DB)
    (user_id : String) :
    ((send_to_user cfg attempt now db user_id).1).notifications = db.notifications ∧
    ((send_to_user cfg attempt now db user_id).1).reminders = db.reminders ∧
    ((send_to_user cfg attempt now db user_id).1).todos = db.todos ∧
    ((send_to_user cfg attempt now db user_id).1).occurrences = db.occurrences := by
  unfold send_to_user
  exact push_foldl_preserves cfg attempt now (get_user_subscriptions db user_id) (db, 0)

/-- C1.  Firing a reminder, for every possible push-transport behaviour
(in particular when every attempt fails): if the parent todo still exists,
exactly one notification row is appended for the user of the reminder — kind
`reminder`, title `"Reminder: " + todo.title`, body `"Due: " + formatted
due date` when the todo has a due date and `"Task reminder"` otherwise —
and the reminder row moves to `sent` with `sent_at` stamped; if the parent
todo is gone, the reminder row moves to `cancelled` and no notification is
created. -/
theorem fire_reminder_durable_notification (cfg : PushConfig)
    (attempt : PushSubscription → PushAttemptOutcome) (now : Instant) (db : DB)
    (r : Reminder) :
    (∀ todo, db.todos.find? (fun t => t.id == r.todo_id) = some todo →
      (fire_reminder cfg attempt now db r).2 = true ∧
      ((fire_reminder cfg attempt now db r).1).notifications = db.notifications ++
        [{ user_id := r.user_id, type := .reminder,
           title := "Reminder: " ++ todo.title,
           body := match todo.due_date with
             | some d => "Due: " ++ strftimeMonthDayYear d
             | none => "Task reminder",
           todo_id := some todo.id, reminder_id := some r.id, read := false,
           created_at := now }] ∧
      ((fire_reminder cfg attempt now db r).1).reminders = db.reminders.map
        (fun x => if x.id == r.id then { r with status := .sent, sent_at := some now }
          else x)) ∧
    (db.todos.find? (fun t => t.id == r.todo_id) = none →
      (fire_reminder cfg attempt now db r).2 = false ∧
      ((fire_reminder cfg attempt now db r).1).notifications = db.notifications ∧
      ((fire_reminder cfg attempt now db r).1).reminders = db.reminders.map
        (fun x => if x.id == r.id then { r with status := .cancelled } else x)) := by
  constructor
  · intro todo hfind
    have hpush := send_to_user_preserves cfg attempt now
      (create_notification now db r.user_id .reminder
        ("Reminder: " ++ todo.title)
        (match todo.due_date with
          | some d => "Due: " ++ strftimeMonthDayYear d
          | none => "Task reminder")
        (some todo.id) (some r.id))
      r.user_id
    refine ⟨?_, ?_, ?_⟩
    · simp [fire_reminder, hfind]
    · simp only [fire_reminder, hfind]
      rw [hpush.1]
      simp [create_notification]
    · simp only [fire_reminder, hfind]
      rw [hpush.2.1]
      simp [create_notification]
  · intro hfind
    refine ⟨?_, ?_, ?_⟩ <;> simp [fire_reminder, hfind]

def fireDemoTodo : Todo :=
  { id := "t1", title := "Pay rent", description := none, completed := false,
    user_id := "u1", due_date := some 20513, priority := some .high,
    is_recurring := false, rrule := none, recurrence_end_date := none,
    recurrence_count := none, occurrences_generated := 0, created_at := 0, updated_at := 0 }

def fireDemoReminder : Reminder :=
  { id := "r1", todo_id := "t1", occurrence_id := none, user_id := "u1",
    fire_at := 29538720, offset_minutes := none, status := .pending, sent_at := none,
    snoozed_until := none, created_at := 0 }

def fireDemoSub : PushSubscription :=
  { id := "s9", user_id := "u1", endpoint := "e9", p256dh_key := "k", auth_key := "a",
    user_agent := none, created_at := 0, last_used_at := none }

def fireDemoDB : DB :=
  { todos := [fireDemoTodo], occurrences := [], reminders := [fireDemoReminder],
    notifications := [], subscriptions := [fireDemoSub], tags := [], todo_tags := [] }

/-- C1 witness: a concrete reminder fired while every push attempt raises;
the single notification row appears with the rendered title and body, and
the reminder is stamped sent. -/
theorem fire_reminder_durable_notification_witness :
    (fire_reminder pushDemoConfig (fun _ => .otherException) 29538737
        fireDemoDB fireDemoReminder).2 = true ∧
    ((fire_reminder pushDemoConfig (fun _ => .otherException) 29538737
        fireDemoDB fireDemoReminder).1).notifications =
      [{ user_id := "u1", type := .reminder, title := "Reminder: Pay rent",
         body := "Due: Mar 01, 2026", todo_id := some "t1", reminder_id := some "r1",
         read := false, created_at := 29538737 }] ∧
    ((fire_reminder pushDemoConfig (fun _ => .otherException) 29538737
        fireDemoDB fireDemoReminder).1).reminders =
      [{ fireDemoReminder with status := .sent, sent_at := some 29538737 }] := by
  obtain ⟨h1, h2, h3⟩ := (fire_reminder_durable_notification pushDemoConfig
      (fun _ => PushAttemptOutcome.otherException) 29538737 fireDemoDB fireDemoReminder).1
      fireDemoTodo (by decide)
  refine ⟨h1, ?_, ?_⟩
  · rw [h2]; decide
  · rw [h3]; decide

theorem mem_insertByFireAt (r x : Reminder) (l : List Reminder) :
    x ∈ insertByFireAt r l ↔ x = r ∨ x ∈ l := by
  induction l with
  | nil => simp [insertByFireAt]
  | cons y ys ih =>
      simp only [insertByFireAt]
      by_cases h : r.fire_at ≤ y.fire_at
      · simp [h]
      · rw [if_neg (by simpa using h)]
        simp only [List.mem_cons, ih]
        tauto

theorem mem_sortByFireAt (x : Reminder) (l : List Reminder) :
    x ∈ sortByFireAt l ↔ x ∈ l := by
  induction l with
  | nil => simp [sortByFireAt]
  | cons y ys ih => simp [sortByFireAt, mem_insertByFireAt, ih]

theorem get_pending_reminders_spec (db : DB) (before : Instant) :
    ∀ r ∈ get_pending_reminders db before,
      r ∈ db.reminders ∧ r.fire_at ≤ before ∧
        (r.status = ReminderStatus.pending ∨ r.status = ReminderStatus.snoozed) := by
  intro r hr
  rw [get_pending_reminders, mem_sortByFireAt, List.mem_filter] at hr
  obtain ⟨hmem, hcond⟩ := hr
  rw [Bool.and_eq_true, Bool.or_eq_true] at hcond
  refine ⟨hmem, by simpa using hcond.1, ?_⟩
  rcases hcond.2 with h | h
  · exact Or.inl (by simpa using h)
  · exact Or.inr (by simpa using h)

theorem fire_reminder_reminders_shape (cfg : PushConfig)
    (attempt : PushSubscription → PushAttemptOutcome) (now : Instant) (db : DB)
    (r : Reminder) :
    ∃ rN : Reminder, rN.id = r.id ∧
      ((fire_reminder cfg attempt now db r).1).reminders
        = db.reminders.map (fun x => if x.id == r.id then rN else x) := by
  rcases hfind : db.todos.find? (fun t => t.id == r.todo_id) with _ | todo
  · exact ⟨{ r with status := .cancelled }, rfl,
      ((fire_reminder_durable_notification cfg attempt now db r).2 hfind).2.2⟩
  · exact ⟨{ r with status := .sent, sent_at := some now }, rfl,
      (((fire_reminder_durable_notification cfg attempt now db r).1 todo hfind)).2.2⟩

theorem map_replace_keeps_other (rS rN : Reminder) (rid : String) (hne : rid ≠ rS.id)
    (hrN : rN.id = rid) (l : List Reminder) :
    (rS ∈ l → rS ∈ l.map (fun x => if x.id == rid then rN else x)) ∧
    ((∀ x ∈ l, x.id = rS.id → x = rS) →
      ∀ y ∈ l.map (fun x => if x.id == rid then rN else x), y.id = rS.id → y = rS) := by
  constructor
  · intro hmem
    rw [List.mem_map]
    refine ⟨rS, hmem, ?_⟩
    have hfalse : (rS.id == rid) = false := by
      simpa using fun h => hne h.symm
    simp [hfalse]
  · intro hall y hy hid
    rw [List.mem_map] at hy
    obtain ⟨x, hx, himg⟩ := hy
    by_cases hxid : (x.id == rid) = true
    · simp only [hxid, if_true] at himg
      rw [← himg] at hid
      exact absurd (hrN.symm.trans hid) hne
    · simp only [hxid, Bool.false_eq_true, if_false] at himg
      rw [← himg] at hid ⊢
      exact hall x hx hid

theorem process_fold_keeps_row (cfg : PushConfig)
    (attempt : PushSubscription → PushAttemptOutcome) (now : Instant) (rS : Reminder) :
    ∀ (rs : List Reminder), (∀ r ∈ rs, r.id ≠ rS.id) →
      ∀ (acc : DB × Nat), rS ∈ (acc.1).reminders →
        (∀ x ∈ (acc.1).reminders, x.id = rS.id → x = rS) →
        rS ∈ ((rs.foldl (fun acc r =>
            let p := fire_reminder cfg attempt now acc.1 r
            (p.1, acc.2 + if p.2 then 1 else 0)) acc).1).reminders ∧
        ∀ x ∈ ((rs.foldl (fun acc r =>
            let p := fire_reminder cfg attempt now acc.1 r
            (p.1, acc.2 + if p.2 then 1 else 0)) acc).1).reminders, x.id = rS.id → x = rS := by
  intro rs
  induction rs with
  | nil => intro _ acc h1 h2; exact ⟨h1, h2⟩
  | cons r rest ih =>
      intro hids acc h1 h2
      simp only [List.foldl_cons]
      obtain ⟨rN, hrN, hshape⟩ := fire_reminder_reminders_shape cfg attempt now acc.1 r
      have hne : r.id ≠ rS.id := hids r (List.mem_cons_self r rest)
      obtain ⟨hk1, hk2⟩ := map_replace_keeps_other rS rN r.id hne hrN (acc.1).reminders
      refine ih (fun x hx => hids x (List.mem_cons_of_mem r hx))
        ((fire_reminder cfg attempt now acc.1 r).1,
          acc.2 + if (fire_reminder cfg attempt now acc.1 r).2 then 1 else 0) ?_ ?_
      · rw [hshape]; exact hk1 h1
      · rw [hshape]; exact hk2 h2

/-- C2 counterexample: a reminder in the terminal status `sent` is moved to
`snoozed` by `snooze_reminder`, and an occurrence in the terminal status
`completed` is moved back to `pending` by `update_occurrence_status`; both
writes are unguarded, so the claimed preservation of terminal states under
every exposed operation fails. -/
theorem terminal_status_unguarded_counterexample :
    (let rS : Reminder :=
      { id := "r1", todo_id := "t1", occurrence_id := none, user_id := "u1", fire_at := 50,
        offset_minutes := none, status := .sent, sent_at := some 50, snoozed_until := none,
        created_at := 0 }
     let oC : TodoOccurrence :=
      { id := "o1", parent_todo_id := "t1", user_id := "u1", occurrence_date := 5,
        status := .completed, completed_at := some 10, created_at := 0, updated_at := 0 }
     let db : DB :=
      { todos := [], occurrences := [oC], reminders := [rS], notifications := [],
        subscriptions := [], tags := [], todo_tags := [] }
     rS.status = ReminderStatus.sent ∧
     (((snooze_reminder 100 db "u1" "r1" 15).1).reminders.map (·.status))
       = [ReminderStatus.snoozed] ∧
     oC.status = OccurrenceStatus.completed ∧
     (((update_occurrence_status 100 db "u1" "o1" .pending).1).occurrences.map (·.status))
       = [OccurrenceStatus.pending]) := by
  decide

/-- C2 amended.  Dispatcher processing preserves terminal states: the
dispatcher only ever selects pending or snoozed reminders, and — given
unique reminder ids — a reminder row in `sent` or `cancelled` survives a
whole dispatcher run unchanged.  The service-layer writes, however, are
unguarded: whenever `snooze_reminder` finds its reminder it sets the status
to `snoozed` regardless of the current status, and whenever
`update_occurrence_status` finds its occurrence it writes exactly the
requested status, terminal or not. -/
theorem terminal_status_dispatcher_preserved_writes_unguarded (cfg : PushConfig)
    (attempt : PushSubscription → PushAttemptOutcome) (now : Instant) (db : DB) :
    (∀ r ∈ get_pending_reminders db now,
      r.status = ReminderStatus.pending ∨ r.status = ReminderStatus.snoozed) ∧
    ((db.reminders.map (·.id)).Nodup →
      ∀ rS ∈ db.reminders, (rS.status = ReminderStatus.sent ∨
          rS.status = ReminderStatus.cancelled) →
        rS ∈ ((process_pending_reminders cfg attempt now db).1).reminders ∧
        ∀ x ∈ ((process_pending_reminders cfg attempt now db).1).reminders,
          x.id = rS.id → x = rS) ∧
    (∀ uid rid m r1, (snooze_reminder now db uid rid m).2 = some r1 →
      r1.status = ReminderStatus.snoozed ∧ r1.fire_at = now + m ∧
        r1.snoozed_until = some (now + m)) ∧
    (∀ uid oid st o1, (update_occurrence_status now db uid oid st).2 = some o1 →
      o1.status = st) := by
  refine ⟨?_, ?_, ?_, ?_⟩
  · intro r hr
    exact (get_pending_reminders_spec db now r hr).2.2
  · intro hnodup rS hmem hterm
    have hinj := List.inj_on_of_nodup_map hnodup
    have hids : ∀ r ∈ get_pending_reminders db now, r.id ≠ rS.id := by
      intro r hr hid
      obtain ⟨hrmem, _, hst⟩ := get_pending_reminders_spec db now r hr
      have : r = rS := hinj hrmem hmem hid
      subst this
      rcases hst with h | h <;> rcases hterm with h2 | h2 <;> rw [h] at h2 <;> cases h2
    have hall : ∀ x ∈ db.reminders, x.id = rS.id → x = rS := by
      intro x hx hid
      exact hinj hx hmem hid
    exact process_fold_keeps_row cfg attempt now rS (get_pending_reminders db now) hids
      (db, 0) hmem hall
  · intro uid rid m r1 h
    rcases hfind : db.reminders.find? (fun r => r.id == rid && r.user_id == uid) with _ | r
    · rw [snooze_reminder, hfind] at h; cases h
    · rw [snooze_reminder, hfind] at h
      simp only [Option.some.injEq] at h
      subst h
      exact ⟨rfl, rfl, rfl⟩
  · intro uid oid st o1 h
    rcases hfind : db.occurrences.find? (fun o => o.id == oid && o.user_id == uid) with _ | o
    · rw [update_occurrence_status, hfind] at h; cases h
    · rw [update_occurrence_status, hfind] at h
      simp only [Option.some.injEq] at h
      subst h
      rfl

def c2DemoSent : Reminder :=
  { id := "rs", todo_id := "t1", occurrence_id := none, user_id := "u1", fire_at := 10,
    offset_minutes := none, status := .sent, sent_at := some 10, snoozed_until := none,
    created_at := 0 }

def c2DemoPending : Reminder :=
  { id := "rp", todo_id := "t1", occurrence_id := none, user_id := "u1", fire_at := 20,
    offset_minutes := none, status := .pending, sent_at := none, snoozed_until := none,
    created_at := 0 }

def c2DemoDB : DB :=
  { todos := [], occurrences := [], reminders := [c2DemoSent, c2DemoPending],
    notifications := [], subscriptions := [], tags := [], todo_tags := [] }

/-- C2 witness: on a store holding one sent and one pending reminder with
distinct ids, a dispatcher run at time 100 keeps the sent row exactly as it
was. -/
theorem terminal_status_dispatcher_preserved_witness :
    c2DemoSent ∈ ((process_pending_reminders pushDemoConfig (fun _ => .otherException)
        100 c2DemoDB).1).reminders ∧
    ∀ x ∈ ((process_pending_reminders pushDemoConfig (fun _ => .otherException)
        100 c2DemoDB).1).reminders, x.id = c2DemoSent.id → x = c2DemoSent := by
  exact (terminal_status_dispatcher_preserved_writes_unguarded pushDemoConfig
      (fun _ => PushAttemptOutcome.otherException) 100 c2DemoDB).2.1
    (by decide) c2DemoSent (by decide) (Or.inl rfl)

/-! ## Reminder creation (`ReminderCreate` schema + `ReminderService.create_reminder`)

The pydantic schema checks the offset range (`ge=-10080`, `le=0`) and that
exactly one of `fire_at` and `offset_minutes` is supplied; the service then
checks the active-reminder cap, the todo and its owner, and computes the
fire instant from the due date when an offset is used
(`datetime.combine(due_date, midnight, UTC) + offset minutes`). -/

def reminder_create_validate (fire_at : Option Instant) (offset_minutes : Option Int) :
    Except String Unit :=
  match offset_minutes with
  | some o =>
      if o < -10080 || 0 < o then Except.error "offset_minutes out of range"
      else
        if fire_at.isNone && offset_minutes.isNone then
          Except.error "Either fire_at or offset_minutes must be provided"
        else if fire_at.isSome && offset_minutes.isSome then
          Except.error "fire_at and offset_minutes are mutually exclusive"
        else Except.ok ()
  | none =>
      if fire_at.isNone && offset_minutes.isNone then
        Except.error "Either fire_at or offset_minutes must be provided"
      else if fire_at.isSome && offset_minutes.isSome then
        Except.error "fire_at and offset_minutes are mutually exclusive"
      else Except.ok ()

def create_reminder (db : DB) (user_id todo_id : String) (fire_at : Option Instant)
    (offset_minutes : Option Int) (occurrence_id : Option String) (newId : String)
    (now : Instant) : Except String (DB × Reminder) :=
  let existing_count := (db.reminders.filter fun r =>
    r.todo_id == todo_id &&
      (r.status == ReminderStatus.pending || r.status == ReminderStatus.snoozed)).length
  if 5 ≤ existing_count then Except.error "Maximum 5 reminders per todo"
  else
    match db.todos.find? (fun t => t.id == todo_id) with
    | none => Except.error "Todo not found"
    | some todo =>
        if todo.user_id ≠ user_id then Except.error "Todo does not belong to user"
        else
          let mk : Instant → Except String (DB × Reminder) := fun fa =>
            let r : Reminder :=
              { id := newId, todo_id := todo_id, occurrence_id := occurrence_id,
                user_id := user_id, fire_at := fa, offset_minutes := offset_minutes,
                status := .pending, sent_at := none, snoozed_until := none,
                created_at := now }
            Except.ok ({ db with reminders := db.reminders ++ [r] }, r)
          match offset_minutes with
          | some o =>
              match todo.due_date with
              | none => Except.error "Cannot use offset_minutes without a due_date on the todo"
              | some d => mk ((d : Int) * 1440 + o)
          | none =>
              match fire_at with
              | none => Except.error "Either fire_at or offset_minutes must be provided"
              | some f => mk f

/-- Source `POST /todos/{id}/reminders`: schema validation, then the service. -/
def create_reminder_endpoint (db : DB) (user_id todo_id : String) (fire_at : Option Instant)
    (offset_minutes : Option Int) (occurrence_id : Option String) (newId : String)
    (now : Instant) : Except String (DB × Reminder) :=
  match reminder_create_validate fire_at offset_minutes with
  | Except.error e => Except.error e
  | Except.ok _ =>
      create_reminder db user_id todo_id fire_at offset_minutes occurrence_id newId now

/-- C9.  Reminder creation enforces its preconditions, and an error leaves
no reminder created (the endpoint returns before anything is added): it
fails when the todo already has 5 active (pending or snoozed) reminders,
when an offset is supplied but the resolved todo has no due date, and when
neither a fire instant nor an offset is supplied; on success the store
gains exactly the one new pending reminder, the request carried exactly one
of the two fire specifications, and the fire instant is the absolute instant of the request or is computed from the due date and the offset. -/
theorem create_reminder_preconditions (db : DB) (uid tid : String) (fire : Option Instant)
    (off : Option Int) (occ : Option String) (newId : String) (now : Instant) :
    (5 ≤ (db.reminders.filter fun r =>
        r.todo_id == tid && (r.status == ReminderStatus.pending ||
          r.status == ReminderStatus.snoozed)).length →
      ∀ res, create_reminder_endpoint db uid tid fire off occ newId now ≠ Except.ok res) ∧
    (∀ todo o, db.todos.find? (fun t => t.id == tid) = some todo → todo.due_date = none →
      off = some o →
      ∀ res, create_reminder_endpoint db uid tid fire off occ newId now ≠ Except.ok res) ∧
    (fire = none → off = none →
      ∀ res, create_reminder_endpoint db uid tid fire off occ newId now ≠ Except.ok res) ∧
    (∀ db1 r, create_reminder_endpoint db uid tid fire off occ newId now
        = Except.ok (db1, r) →
      db1.reminders = db.reminders ++ [r] ∧
      r.status = ReminderStatus.pending ∧ r.offset_minutes = off ∧ r.todo_id = tid ∧
      r.user_id = uid ∧
      ((fire.isSome = true ∧ off = none) ∨ (fire = none ∧ off.isSome = true)) ∧
      (∀ o, off = some o → ∃ todo d,
        db.todos.find? (fun t => t.id == tid) = some todo ∧ todo.due_date = some d ∧
        r.fire_at = (d : Int) * 1440 + o) ∧
      (∀ f, fire = some f → off = none → r.fire_at = f)) := by
  refine ⟨?_, ?_, ?_, ?_⟩
  · intro hcap res h
    rcases hv : reminder_create_validate fire off with e | u
    · simp [create_reminder_endpoint, hv] at h
    · simp [create_reminder_endpoint, hv, create_reminder, hcap] at h
  · intro todo o hfind hdue hoff res h
    subst hoff
    rcases hv : reminder_create_validate fire (some o) with e | u
    · simp [create_reminder_endpoint, hv] at h
    · by_cases hcap : 5 ≤ (db.reminders.filter fun r =>
          r.todo_id == tid && (r.status == ReminderStatus.pending ||
            r.status == ReminderStatus.snoozed)).length
      · simp [create_reminder_endpoint, hv, create_reminder, hcap] at h
      · by_cases huser : todo.user_id = uid
        · simp [create_reminder_endpoint, hv, create_reminder, hcap, hfind, huser, hdue] at h
        · simp [create_reminder_endpoint, hv, create_reminder, hcap, hfind, huser] at h
  · intro hf ho res h
    subst hf; subst ho
    simp [create_reminder_endpoint, reminder_create_validate] at h
  · intro db1 r h
    rcases hv : reminder_create_validate fire off with e | u
    · simp [create_reminder_endpoint, hv] at h
    · have hxor : (fire.isSome = true ∧ off = none) ∨ (fire = none ∧ off.isSome = true) := by
        rcases fire with _ | f <;> rcases off with _ | o
        · simp [reminder_create_validate] at hv
        · exact Or.inr ⟨rfl, rfl⟩
        · exact Or.inl ⟨rfl, rfl⟩
        · simp only [reminder_create_validate] at hv
          split at hv <;> simp at hv
      simp only [create_reminder_endpoint, hv] at h
      by_cases hcap : 5 ≤ (db.reminders.filter fun r =>
          r.todo_id == tid && (r.status == ReminderStatus.pending ||
            r.status == ReminderStatus.snoozed)).length
      · simp [create_reminder, hcap] at h
      · rcases hfind : db.todos.find? (fun t => t.id == tid) with _ | todo
        · simp [create_reminder, hcap, hfind] at h
        · by_cases huser : todo.user_id = uid
          · rcases hxor with ⟨hfs, hoffn⟩ | ⟨hfn, hoffs⟩
            · subst hoffn
              rcases fire with _ | f
              · cases hfs
              · simp [create_reminder, hcap, hfind, huser] at h
                obtain ⟨hdb1, hr⟩ := h
                subst hr
                refine ⟨?_, rfl, rfl, rfl, rfl, Or.inl ⟨rfl, rfl⟩, ?_, ?_⟩
                · rw [← hdb1]
                · intro o ho; cases ho
                · intro f2 hf2 _
                  rw [Option.some.injEq] at hf2
                  simp [hf2]
            · subst hfn
              rcases off with _ | o
              · cases hoffs
              · rcases hdue : todo.due_date with _ | d
                · simp [create_reminder, hcap, hfind, huser, hdue] at h
                · simp [create_reminder, hcap, hfind, huser, hdue] at h
                  obtain ⟨hdb1, hr⟩ := h
                  subst hr
                  refine ⟨?_, rfl, rfl, rfl, rfl, Or.inr ⟨rfl, rfl⟩, ?_, ?_⟩
                  · rw [← hdb1]
                  · intro o2 ho2
                    rw [Option.some.injEq] at ho2
                    subst ho2
                    exact ⟨todo, d, hfind, hdue, rfl⟩
                  · intro f2 hf2; cases hf2
          · simp [create_reminder, hcap, hfind, huser] at h

def c9DemoReminder (n : Nat) : Reminder :=
  { id := "r" ++ toString n, todo_id := "t1", occurrence_id := none, user_id := "u1",
    fire_at := 100, offset_minutes := none, status := .pending, sent_at := none,
    snoozed_until := none, created_at := 0 }

def c9DemoTodo : Todo :=
  { id := "t1", title := "T", description := none, completed := false, user_id := "u1",
    due_date := none, priority := none, is_recurring := false, rrule := none,
    recurrence_end_date := none, recurrence_count := none, occurrences_generated := 0,
    created_at := 0, updated_at := 0 }

def c9DemoDB : DB :=
  { todos := [c9DemoTodo], occurrences := [],
    reminders := [c9DemoReminder 1, c9DemoReminder 2, c9DemoReminder 3,
      c9DemoReminder 4, c9DemoReminder 5],
    notifications := [], subscriptions := [], tags := [], todo_tags := [] }

/-- C9 witness: on a todo that already has 5 active reminders, creating a
6th fails. -/
theorem create_reminder_preconditions_witness :
    ∀ res, create_reminder_endpoint c9DemoDB "u1" "t1" (some 100) none none "r6" 0
      ≠ Except.ok res := by
  exact (create_reminder_preconditions c9DemoDB "u1" "t1" (some 100) none none "r6" 0).1
    (by decide)

/-! ## Stopping a series (`TodoService.stop_recurring`) -/

/-- Source `TodoService.get_todo_by_id`: lookup by id and owner. -/
def get_todo_by_id (db : DB) (user_id todo_id : String) : Option Todo :=
  db.todos.find? (fun t => t.id == todo_id && t.user_id == user_id)

/-- Rows deleted by `stop_recurring` when `keep_pending` is false: pending
occurrences of the series strictly after today. -/
def pendingFutureOcc (user_id todo_id : String) (today : Date) (o : TodoOccurrence) : Bool :=
  o.parent_todo_id == todo_id && o.user_id == user_id &&
    o.status == OccurrenceStatus.pending && decide (today < o.occurrence_date)

/-- Source `TodoService.stop_recurring`. -/
def stop_recurring (today : Date) (now : Instant) (db : DB) (user_id todo_id : String)
    (keep_pending : Bool) : DB × Option Todo :=
  match get_todo_by_id db user_id todo_id with
  | none => (db, none)
  | some todo =>
      if ¬ todo.is_recurring then (db, some todo)
      else
        let todo1 := { todo with
          is_recurring := false
          rrule := none
          recurrence_end_date := some today
          updated_at := now }
        let occs1 :=
          if keep_pending then db.occurrences
          else db.occurrences.filter fun o => !(pendingFutureOcc user_id todo_id today o)
        ({ db with
            todos := db.todos.map fun t => if t.id == todo.id then todo1 else t,
            occurrences := occs1 },
          some todo1)

/-- C10.  For a todo owned by the caller: when it is recurring,
`stop_recurring` returns it with `is_recurring` false, the rrule cleared,
`recurrence_end_date` stamped with today, writes that row back, and — when
`keep_pending` is false — a stored occurrence survives exactly when it is
not a pending occurrence of this series dated strictly after today (with
`keep_pending` true nothing is deleted); reminders and notifications are
untouched.  When the todo is already not recurring the call changes
nothing and still returns the todo; an unknown or foreign id changes
nothing and returns none. -/
theorem stop_recurring_spec (today : Date) (now : Instant) (db : DB)
    (uid tid : String) (keep : Bool) :
    (∀ todo, get_todo_by_id db uid tid = some todo → todo.is_recurring = false →
      stop_recurring today now db uid tid keep = (db, some todo)) ∧
    (∀ todo, get_todo_by_id db uid tid = some todo → todo.is_recurring = true →
      (stop_recurring today now db uid tid keep).2
        = some { todo with
            is_recurring := false
            rrule := none
            recurrence_end_date := some today
            updated_at := now } ∧
      ((stop_recurring today now db uid tid keep).1).todos
        = db.todos.map (fun t => if t.id == todo.id then
            { todo with
              is_recurring := false
              rrule := none
              recurrence_end_date := some today
              updated_at := now } else t) ∧
      (keep = false → ∀ o, o ∈ ((stop_recurring today now db uid tid keep).1).occurrences ↔
        (o ∈ db.occurrences ∧ ¬ pendingFutureOcc uid tid today o = true)) ∧
      (keep = true →
        ((stop_recurring today now db uid tid keep).1).occurrences = db.occurrences) ∧
      ((stop_recurring today now db uid tid keep).1).reminders = db.reminders ∧
      ((stop_recurring today now db uid tid keep).1).notifications = db.notifications) ∧
    (get_todo_by_id db uid tid = none →
      stop_recurring today now db uid tid keep = (db, none)) := by
  refine ⟨?_, ?_, ?_⟩
  · intro todo hfind hrec
    simp [stop_recurring, hfind, hrec]
  · intro todo hfind hrec
    refine ⟨?_, ?_, ?_, ?_, ?_, ?_⟩
    · simp [stop_recurring, hfind, hrec]
    · simp [stop_recurring, hfind, hrec]
    · intro hkeep o
      subst hkeep
      simp [stop_recurring, hfind, hrec, List.mem_filter]
    · intro hkeep
      subst hkeep
      simp [stop_recurring, hfind, hrec]
    · simp [stop_recurring, hfind, hrec]
    · simp [stop_recurring, hfind, hrec]
  · intro hfind
    simp [stop_recurring, hfind]

def c10DemoTodo : Todo :=
  { id := "t1", title := "Workout", description := none, completed := false, user_id := "u1",
    due_date := some 100, priority := none, is_recurring := true,
    rrule := some "FREQ=DAILY", recurrence_end_date := none, recurrence_count := none,
    occurrences_generated := 2, created_at := 0, updated_at := 0 }

def c10DemoOccToday : TodoOccurrence :=
  { id := "o1", parent_todo_id := "t1", user_id := "u1", occurrence_date := 100,
    status := .pending, completed_at := none, created_at := 0, updated_at := 0 }

def c10DemoOccFuture : TodoOccurrence :=
  { id := "o2", parent_todo_id := "t1", user_id := "u1", occurrence_date := 101,
    status := .pending, completed_at := none, created_at := 0, updated_at := 0 }

def c10DemoDB : DB :=
  { todos := [c10DemoTodo], occurrences := [c10DemoOccToday, c10DemoOccFuture],
    reminders := [], notifications := [], subscriptions := [], tags := [], todo_tags := [] }

/-- C10 witness: stopping the demo series on day 100 with
`keep_pending = false` clears the recurrence fields, stamps the end date,
deletes the strictly-future pending occurrence and keeps the one dated
today. -/
theorem stop_recurring_spec_witness :
    (stop_recurring 100 7 c10DemoDB "u1" "t1" false).2
      = some { c10DemoTodo with
          is_recurring := false
          rrule := none
          recurrence_end_date := some 100
          updated_at := 7 } ∧
    (c10DemoOccToday ∈ ((stop_recurring 100 7 c10DemoDB "u1" "t1" false).1).occurrences ↔
      (c10DemoOccToday ∈ c10DemoDB.occurrences ∧
        ¬ pendingFutureOcc "u1" "t1" 100 c10DemoOccToday = true)) ∧
    (c10DemoOccFuture ∈ ((stop_recurring 100 7 c10DemoDB "u1" "t1" false).1).occurrences ↔
      (c10DemoOccFuture ∈ c10DemoDB.occurrences ∧
        ¬ pendingFutureOcc "u1" "t1" 100 c10DemoOccFuture = true)) := by
  obtain ⟨h1, _, h3, _, _, _⟩ := (stop_recurring_spec 100 7 c10DemoDB "u1" "t1" false).2.1
    c10DemoTodo (by decide) (by decide)
  exact ⟨h1, h3 rfl c10DemoOccToday, h3 rfl c10DemoOccFuture⟩

/-! ## This-only edits (`TodoService._update_this_only`)

The patch schema `TodoUpdate`: a `none` field was not supplied.  The
current occurrence is the row of the series dated today if one exists (whatever
its status), else the earliest pending strictly-future row. -/

structure TodoUpdate where
  title : Option String
  description : Option String
  completed : Option Bool
  due_date : Option Date
  priority : Option Priority
  tag_ids : Option (List String)
deriving DecidableEq, Repr

/-- Source `TodoService.get_current_occurrence`. -/
def get_current_occurrence (today : Date) (db : DB) (user_id todo_id : String) :
    Option TodoOccurrence :=
  match db.occurrences.find? (fun o => o.parent_todo_id == todo_id &&
      o.user_id == user_id && o.occurrence_date == today) with
  | some o => some o
  | none =>
      (db.occurrences.filter (fun o => o.parent_todo_id == todo_id && o.user_id == user_id &&
          o.status == OccurrenceStatus.pending && decide (today < o.occurrence_date))).foldl
        (fun acc o => match acc with
          | none => some o
          | some a => if o.occurrence_date < a.occurrence_date then some o else acc) none

/-- Source `TodoService._assign_tags`: only tags that exist and belong to the user
are attached; invalid ids are silently dropped. -/
def assign_tags (db : DB) (user_id todo_id : String) (tag_ids : List String) : DB :=
  let valid := tag_ids.filter (fun tid =>
    db.tags.any (fun tg => tg.id == tid && tg.user_id == user_id))
  { db with todo_tags :=
      db.todo_tags ++ valid.map (fun tid => { todo_id := todo_id, tag_id := tid }) }

/-- Count of pending occurrences of the series dated today or later. -/
def pendingFutureCount (today : Date) (db : DB) (user_id todo_id : String) : Nat :=
  (db.occurrences.filter (fun o =>
    o.parent_todo_id == todo_id && o.user_id == user_id &&
      o.status == OccurrenceStatus.pending && decide (today ≤ o.occurrence_date))).length

/-- Latest stored occurrence date of the series (order by date descending,
first row). -/
def latestOccurrenceDate (db : DB) (todo_id : String) : Option Date :=
  (db.occurrences.filter (fun o => o.parent_todo_id == todo_id)).foldl
    (fun acc o => match acc with
      | none => some o.occurrence_date
      | some a => if a < o.occurrence_date then some o.occurrence_date else acc)
    none

/-- Source `TodoService._ensure_future_occurrences` with the source defaults
`min_future = 5`, `max_occurrences = 2 * min_future = 10`. -/
def ensure_future_occurrences (ruleEval : RuleEval) (freshId : Date → String) (today : Date)
    (now : Instant) (db : DB) (user_id todo_id : String) : DB :=
  match get_todo_by_id db user_id todo_id with
  | none => db
  | some todo =>
      if ¬ todo.is_recurring then db
      else
        match todo.rrule with
        | none => db
        | some rrule =>
            if 5 ≤ pendingFutureCount today db user_id todo_id then db
            else
              match (match latestOccurrenceDate db todo_id with
                     | some l => some l
                     | none => todo.due_date) with
              | none => db
              | some s =>
                  (generateOccurrencesForTodo ruleEval freshId now db user_id todo_id
                    rrule (s + 1) 10).1

/-- The new non-recurring todo materialized by a this-only edit: head and
patch merged (`completed` defaults to false, not to the flag of the head), due
date from the patch, else the current occurrence, else the head. -/
def thisOnlyNewTodo (today : Date) (now : Instant) (db : DB) (user_id : String)
    (todo : Todo) (patch : TodoUpdate) (newTodoId : String) : Todo :=
  let current_occ := get_current_occurrence today db user_id todo.id
  let base_due := match current_occ with
    | some o => some o.occurrence_date
    | none => todo.due_date
  { id := newTodoId
    title := patch.title.getD todo.title
    description := match patch.description with
      | some d => some d
      | none => todo.description
    completed := patch.completed.getD false
    user_id := user_id
    due_date := match patch.due_date with
      | some d => some d
      | none => base_due
    priority := match patch.priority with
      | some p => some p
      | none => todo.priority
    is_recurring := false
    rrule := none
    recurrence_end_date := none
    recurrence_count := none
    occurrences_generated := 0
    created_at := now
    updated_at := now }

/-- The store after inserting the new todo and settling its tag set: the
patched tag list when given, else a copy of the tag set of the head (when the
head has one). -/
def thisOnlyTagged (today : Date) (now : Instant) (db : DB) (user_id : String)
    (todo : Todo) (patch : TodoUpdate) (newTodoId : String) : DB :=
  let new_todo := thisOnlyNewTodo today now db user_id todo patch newTodoId
  let db1 := { db with todos := db.todos ++ [new_todo] }
  match patch.tag_ids with
  | some l => assign_tags db1 user_id new_todo.id l
  | none =>
      let existing := (db1.todo_tags.filter (fun tt => tt.todo_id == todo.id)).map (·.tag_id)
      if existing.isEmpty then db1 else assign_tags db1 user_id new_todo.id existing

/-- Source `TodoService._update_this_only`: materialize a new non-recurring todo
from the head and the patch, copy the tag set when the patch omits
`tag_ids`, skip the current occurrence of the head, and top the window up. -/
def update_this_only (ruleEval : RuleEval) (freshId : Date → String) (today : Date)
    (now : Instant) (db : DB) (user_id : String) (todo : Todo) (patch : TodoUpdate)
    (newTodoId : String) : DB × Todo :=
  let new_todo := thisOnlyNewTodo today now db user_id todo patch newTodoId
  let db2 := thisOnlyTagged today now db user_id todo patch newTodoId
  match get_current_occurrence today db user_id todo.id with
  | some occ =>
      let db3 := { db2 with occurrences := db2.occurrences.map (fun x =>
          if x.id == occ.id then { occ with status := .skipped, updated_at := now } else x) }
      (ensure_future_occurrences ruleEval freshId today now db3 user_id todo.id, new_todo)
  | none => (db2, new_todo)

theorem map_bump_zero (todos : List Todo) (tid : String) :
    todos.map (fun t => if t.id == tid then
      { t with occurrences_generated := t.occurrences_generated + 0 } else t) = todos := by
  induction todos with
  | nil => rfl
  | cons t ts ih =>
      simp only [List.map_cons, ih]
      congr 1
      by_cases h : (t.id == tid) = true
      · simp [h]
      · simp [h]

theorem db_self_shape (db : DB) (tid : String) :
    db = { db with
      todos := db.todos.map (fun t => if t.id == tid then
        { t with occurrences_generated := t.occurrences_generated + 0 } else t),
      occurrences := db.occurrences ++ [] } := by
  rw [map_bump_zero]
  simp

/-- The rows `_generate_occurrences` inserts, as a standalone value. -/
def stepNewOccurrences (ruleEval : RuleEval) (freshId : Date → String) (now : Instant)
    (db : DB) (user_id todo_id : String) (rrule : String) (startDate : Date)
    (maxOccurrences : Nat) : List TodoOccurrence :=
  let existingDates :=
    (db.occurrences.filter fun o => o.parent_todo_id == todo_id).map (·.occurrence_date)
  let occurrenceDates :=
    generate_occurrences (ruleEval rrule startDate) startDate (startDate + 30) maxOccurrences
  let newDates := occurrenceDates.filter fun d => decide (d ∉ existingDates)
  newDates.map fun d =>
    { id := freshId d
      parent_todo_id := todo_id
      user_id := user_id
      occurrence_date := d
      status := .pending
      completed_at := none
      created_at := now
      updated_at := now }

theorem generateOccurrencesForTodo_eq (ruleEval : RuleEval) (freshId : Date → String)
    (now : Instant) (db : DB) (uid tid rrule : String) (sd : Date) (maxo : Nat) :
    generateOccurrencesForTodo ruleEval freshId now db uid tid rrule sd maxo
      = ({ db with
            todos := if 0 < (stepNewOccurrences ruleEval freshId now db uid tid rrule sd
                maxo).length
              then todoBumpGenerated db.todos tid
                (stepNewOccurrences ruleEval freshId now db uid tid rrule sd maxo).length
              else db.todos,
            occurrences := db.occurrences ++
              stepNewOccurrences ruleEval freshId now db uid tid rrule sd maxo },
          (stepNewOccurrences ruleEval freshId now db uid tid rrule sd maxo).length) := rfl

theorem generateOccurrencesForTodo_shape (ruleEval : RuleEval) (freshId : Date → String)
    (now : Instant) (db : DB) (uid tid rrule : String) (sd : Date) (maxo : Nat) :
    ∃ (k : Nat) (extra : List TodoOccurrence),
      (generateOccurrencesForTodo ruleEval freshId now db uid tid rrule sd maxo).1
        = { db with
            todos := db.todos.map (fun t => if t.id == tid then
              { t with occurrences_generated := t.occurrences_generated + k } else t),
            occurrences := db.occurrences ++ extra } ∧
      ∀ o ∈ extra, o.status = OccurrenceStatus.pending ∧ o.parent_todo_id = tid := by
  have hmem : ∀ o ∈ stepNewOccurrences ruleEval freshId now db uid tid rrule sd maxo,
      o.status = OccurrenceStatus.pending ∧ o.parent_todo_id = tid := by
    intro o ho
    rw [stepNewOccurrences, List.mem_map] at ho
    obtain ⟨d, _, rfl⟩ := ho
    exact ⟨rfl, rfl⟩
  rw [generateOccurrencesForTodo_eq]
  by_cases h : 0 < (stepNewOccurrences ruleEval freshId now db uid tid rrule sd maxo).length
  · refine ⟨(stepNewOccurrences ruleEval freshId now db uid tid rrule sd maxo).length,
      stepNewOccurrences ruleEval freshId now db uid tid rrule sd maxo, ?_, hmem⟩
    simp [h, todoBumpGenerated]
  · have hnil : stepNewOccurrences ruleEval freshId now db uid tid rrule sd maxo = [] :=
      List.eq_nil_of_length_eq_zero (by omega)
    refine ⟨0, [], ?_, by simp⟩
    rw [hnil]
    simp only [List.length_nil, Nat.lt_irrefl, if_false]
    rw [map_bump_zero]

theorem ensure_future_occurrences_shape (ruleEval : RuleEval) (freshId : Date → String)
    (today : Date) (now : Instant) (db : DB) (uid tid : String) :
    ∃ (k : Nat) (extra : List TodoOccurrence),
      ensure_future_occurrences ruleEval freshId today now db uid tid
        = { db with
            todos := db.todos.map (fun t => if t.id == tid then
              { t with occurrences_generated := t.occurrences_generated + k } else t),
            occurrences := db.occurrences ++ extra } ∧
      ∀ o ∈ extra, o.status = OccurrenceStatus.pending ∧ o.parent_todo_id = tid := by
  unfold ensure_future_occurrences
  split
  · exact ⟨0, [], db_self_shape db tid, by simp⟩
  · split
    · exact ⟨0, [], db_self_shape db tid, by simp⟩
    · split
      · exact ⟨0, [], db_self_shape db tid, by simp⟩
      · split
        · exact ⟨0, [], db_self_shape db tid, by simp⟩
        · split
          · exact ⟨0, [], db_self_shape db tid, by simp⟩
          · exact generateOccurrencesForTodo_shape _ _ _ _ _ _ _ _ _

theorem filter_fresh_todo_tags (l : List TodoTag) (nid : String)
    (h : ∀ tt ∈ l, tt.todo_id ≠ nid) :
    l.filter (fun tt => tt.todo_id == nid) = [] := by
  rw [List.filter_eq_nil_iff]
  intro tt htt
  simpa using h tt htt

theorem filter_map_new_assocs (X : List String) (nid : String) :
    ((X.map (fun tid => ({ todo_id := nid, tag_id := tid } : TodoTag))).filter
      (fun tt => tt.todo_id == nid)).map (·.tag_id) = X := by
  induction X with
  | nil => rfl
  | cons x xs ih => simp [ih]

theorem thisOnlyTagged_occurrences (today : Date) (now : Instant) (db : DB) (uid : String)
    (todo : Todo) (patch : TodoUpdate) (nid : String) :
    (thisOnlyTagged today now db uid todo patch nid).occurrences = db.occurrences := by
  rcases hg : patch.tag_ids with _ | l
  · by_cases he : ((db.todo_tags.filter (fun tt => tt.todo_id == todo.id)).map
        (·.tag_id)).isEmpty = true
    · simp [thisOnlyTagged, hg, he]
    · simp [thisOnlyTagged, hg, he, assign_tags]
  · simp [thisOnlyTagged, hg, assign_tags]

theorem thisOnlyTagged_todos (today : Date) (now : Instant) (db : DB) (uid : String)
    (todo : Todo) (patch : TodoUpdate) (nid : String) :
    (thisOnlyTagged today now db uid todo patch nid).todos
      = db.todos ++ [thisOnlyNewTodo today now db uid todo patch nid] := by
  rcases hg : patch.tag_ids with _ | l
  · by_cases he : ((db.todo_tags.filter (fun tt => tt.todo_id == todo.id)).map
        (·.tag_id)).isEmpty = true
    · simp [thisOnlyTagged, hg, he]
    · simp [thisOnlyTagged, hg, he, assign_tags]
  · simp [thisOnlyTagged, hg, assign_tags]

theorem thisOnlyTagged_tag_copy (today : Date) (now : Instant) (db : DB) (uid : String)
    (todo : Todo) (patch : TodoUpdate) (nid : String)
    (hfresh : ∀ tt ∈ db.todo_tags, tt.todo_id ≠ nid) (htag : patch.tag_ids = none) :
    ((thisOnlyTagged today now db uid todo patch nid).todo_tags.filter
        (fun tt => tt.todo_id == nid)).map (·.tag_id)
      = ((db.todo_tags.filter (fun tt => tt.todo_id == todo.id)).map (·.tag_id)).filter
          (fun tid => db.tags.any (fun tg => tg.id == tid && tg.user_id == uid)) := by
  by_cases he : ((db.todo_tags.filter (fun tt => tt.todo_id == todo.id)).map
      (·.tag_id)).isEmpty = true
  · have hnil : (db.todo_tags.filter (fun tt => tt.todo_id == todo.id)).map (·.tag_id)
        = [] := by
      rwa [List.isEmpty_iff] at he
    simp [thisOnlyTagged, htag, he, hnil, filter_fresh_todo_tags db.todo_tags nid hfresh]
  · simp [thisOnlyTagged, htag, he, assign_tags, List.filter_append,
      filter_fresh_todo_tags db.todo_tags nid hfresh, filter_map_new_assocs]
    have hid : (thisOnlyNewTodo today now db uid todo patch nid).id = nid := rfl
    simp only [hid]
    exact filter_map_new_assocs _ nid

/-- C6 amended.  A this-only edit materializes a new non-recurring todo:
title, description and priority are those of the head merged with the patch, the
completed flag is that of the patch when given and false otherwise (the
flag of the head is not inherited — see the counterexample), the due date
is the patched one, else the date of the current occurrence, else that of
the head; when the patch omits `tag_ids` the tag set of the head — filtered through the tags that
still exist and belong to the owner — is attached to the new todo; the
current occurrence of the head, when one exists, is written back as `skipped`
(any further rows appended by the window top-up are pending); and the head
row survives with all fields intact except `occurrences_generated`, which
the top-up may bump. -/
theorem this_only_materializes_new_todo (ruleEval : RuleEval) (freshId : Date → String)
    (today : Date) (now : Instant) (db : DB) (uid : String) (todo : Todo)
    (patch : TodoUpdate) (newTodoId : String) :
    ((update_this_only ruleEval freshId today now db uid todo patch newTodoId).2
      = { id := newTodoId
          title := patch.title.getD todo.title
          description := match patch.description with
            | some d => some d
            | none => todo.description
          completed := patch.completed.getD false
          user_id := uid
          due_date := match patch.due_date with
            | some d => some d
            | none => match get_current_occurrence today db uid todo.id with
              | some o => some o.occurrence_date
              | none => todo.due_date
          priority := match patch.priority with
            | some p => some p
            | none => todo.priority
          is_recurring := false
          rrule := none
          recurrence_end_date := none
          recurrence_count := none
          occurrences_generated := 0
          created_at := now
          updated_at := now }) ∧
    ((∀ tt ∈ db.todo_tags, tt.todo_id ≠ newTodoId) → patch.tag_ids = none →
      (((update_this_only ruleEval freshId today now db uid todo patch newTodoId).1).todo_tags.filter
          (fun tt => tt.todo_id == newTodoId)).map (·.tag_id)
        = ((db.todo_tags.filter (fun tt => tt.todo_id == todo.id)).map (·.tag_id)).filter
            (fun tid => db.tags.any (fun tg => tg.id == tid && tg.user_id == uid))) ∧
    (∀ occ, get_current_occurrence today db uid todo.id = some occ →
      ∃ extra,
        ((update_this_only ruleEval freshId today now db uid todo patch newTodoId).1).occurrences
          = db.occurrences.map (fun x => if x.id == occ.id then
              { occ with status := .skipped, updated_at := now } else x) ++ extra ∧
        ∀ o ∈ extra, o.status = OccurrenceStatus.pending) ∧
    (newTodoId ≠ todo.id →
      ∃ k, ((update_this_only ruleEval freshId today now db uid todo patch newTodoId).1).todos
        = db.todos.map (fun t => if t.id == todo.id then
            { t with occurrences_generated := t.occurrences_generated + k } else t)
          ++ [(update_this_only ruleEval freshId today now db uid todo patch newTodoId).2]) := by
  refine ⟨?_, ?_, ?_, ?_⟩
  · rcases hc : get_current_occurrence today db uid todo.id with _ | occ <;>
      simp [update_this_only, hc, thisOnlyNewTodo]
  · intro hfresh htag
    have hcopy := thisOnlyTagged_tag_copy today now db uid todo patch newTodoId hfresh htag
    rcases hc : get_current_occurrence today db uid todo.id with _ | occ
    · simpa [update_this_only, hc] using hcopy
    · obtain ⟨k, extra, hshape, _⟩ := ensure_future_occurrences_shape ruleEval freshId today
        now { thisOnlyTagged today now db uid todo patch newTodoId with
          occurrences := (thisOnlyTagged today now db uid todo patch newTodoId).occurrences.map
            (fun x => if x.id == occ.id then { occ with status := .skipped, updated_at := now }
              else x) } uid todo.id
      simp only [update_this_only, hc]
      rw [hshape]
      simpa using hcopy
  · intro occ hc
    obtain ⟨k, extra, hshape, hpend⟩ := ensure_future_occurrences_shape ruleEval freshId today
      now { thisOnlyTagged today now db uid todo patch newTodoId with
        occurrences := (thisOnlyTagged today now db uid todo patch newTodoId).occurrences.map
          (fun x => if x.id == occ.id then { occ with status := .skipped, updated_at := now }
            else x) } uid todo.id
    refine ⟨extra, ?_, fun o ho => (hpend o ho).1⟩
    simp only [update_this_only, hc]
    rw [hshape]
    simp [thisOnlyTagged_occurrences]
  · intro hne
    have hbumpnew : ∀ k : Nat,
        (if (thisOnlyNewTodo today now db uid todo patch newTodoId).id == todo.id then
          { thisOnlyNewTodo today now db uid todo patch newTodoId with
            occurrences_generated :=
              (thisOnlyNewTodo today now db uid todo patch newTodoId).occurrences_generated
                + k }
          else thisOnlyNewTodo today now db uid todo patch newTodoId)
          = thisOnlyNewTodo today now db uid todo patch newTodoId := by
      intro k
      have hid : ((thisOnlyNewTodo today now db uid todo patch newTodoId).id == todo.id)
          = false := by
        simpa using hne
      simp [hid]
    rcases hc : get_current_occurrence today db uid todo.id with _ | occ
    · refine ⟨0, ?_⟩
      simp only [update_this_only, hc]
      rw [thisOnlyTagged_todos, map_bump_zero]
    · obtain ⟨k, extra, hshape, _⟩ := ensure_future_occurrences_shape ruleEval freshId today
        now { thisOnlyTagged today now db uid todo patch newTodoId with
          occurrences := (thisOnlyTagged today now db uid todo patch newTodoId).occurrences.map
            (fun x => if x.id == occ.id then { occ with status := .skipped, updated_at := now }
              else x) } uid todo.id
      refine ⟨k, ?_⟩
      simp only [update_this_only, hc]
      rw [hshape]
      simp only [thisOnlyTagged_todos, List.map_append, List.map_cons, List.map_nil]
      rw [hbumpnew k]

def c6DemoHead : Todo :=
  { id := "t1", title := "Doctor", description := none, completed := true, user_id := "u1",
    due_date := some 50, priority := none, is_recurring := true, rrule := some "FREQ=DAILY",
    recurrence_end_date := none, recurrence_count := none, occurrences_generated := 1,
    created_at := 0, updated_at := 0 }

def c6EmptyPatch : TodoUpdate :=
  { title := none, description := none, completed := none, due_date := none,
    priority := none, tag_ids := none }

def c6DemoDB : DB :=
  { todos := [c6DemoHead], occurrences := [], reminders := [], notifications := [],
    subscriptions := [], tags := [], todo_tags := [] }

/-- C6 counterexample: the head is completed, the patch says nothing about
`completed`, yet the new todo of a this-only edit is not completed — the
merge claimed for "fields" does not cover the completed flag, which the
source hard-codes to `data.completed if data.completed is not None else
False`. -/
theorem this_only_completed_not_inherited_counterexample :
    c6DemoHead.completed = true ∧
    ((update_this_only (fun _ _ => []) (fun d => toString d) 60 0 c6DemoDB "u1" c6DemoHead
        c6EmptyPatch "t2").2).completed = false := by
  decide

def c6WitOcc : TodoOccurrence :=
  { id := "o1", parent_todo_id := "t1", user_id := "u1", occurrence_date := 60,
    status := .pending, completed_at := none, created_at := 0, updated_at := 0 }

def c6WitDB : DB :=
  { todos := [c6DemoHead], occurrences := [c6WitOcc], reminders := [], notifications := [],
    subscriptions := [], tags := [{ id := "g1", user_id := "u1", name := "home" }],
    todo_tags := [{ todo_id := "t1", tag_id := "g1" }] }

/-- C6 witness: the amended theorem applied on day 60 to a head with one
tag and a pending occurrence for today: the tag set is copied to the new
todo, the occurrence ends up skipped, and the head row survives next to
the new todo. -/
theorem this_only_materializes_new_todo_witness :
    ((((update_this_only (fun _ _ => []) (fun d => toString d) 60 5 c6WitDB "u1" c6DemoHead
        c6EmptyPatch "t2").1).todo_tags.filter
        (fun tt => tt.todo_id == "t2")).map (·.tag_id)
      = ((c6WitDB.todo_tags.filter (fun tt => tt.todo_id == c6DemoHead.id)).map
          (·.tag_id)).filter
          (fun tid => c6WitDB.tags.any (fun tg => tg.id == tid && tg.user_id == "u1"))) ∧
    (∃ extra,
      (((update_this_only (fun _ _ => []) (fun d => toString d) 60 5 c6WitDB "u1" c6DemoHead
          c6EmptyPatch "t2").1).occurrences
        = c6WitDB.occurrences.map (fun x => if x.id == c6WitOcc.id then
            { c6WitOcc with status := .skipped, updated_at := 5 } else x) ++ extra) ∧
      ∀ o ∈ extra, o.status = OccurrenceStatus.pending) ∧
    (∃ k, ((update_this_only (fun _ _ => []) (fun d => toString d) 60 5 c6WitDB "u1" c6DemoHead
        c6EmptyPatch "t2").1).todos
      = c6WitDB.todos.map (fun t => if t.id == c6DemoHead.id then
          { t with occurrences_generated := t.occurrences_generated + k } else t)
        ++ [(update_this_only (fun _ _ => []) (fun d => toString d) 60 5 c6WitDB "u1"
            c6DemoHead c6EmptyPatch "t2").2]) := by
  obtain ⟨_, h2, h3, h4⟩ := this_only_materializes_new_todo (fun _ _ => [])
    (fun d => toString d) 60 5 c6WitDB "u1" c6DemoHead c6EmptyPatch "t2"
  exact ⟨h2 (by decide) rfl, h3 c6WitOcc (by decide), h4 (by decide)⟩

/-! ## Daily digest (`app/services/daily_digest.py`)

The hourly job checks, per user with the digest enabled and a digest time
configured: (1) the local hour (via `zoneinfo`, here a fixed offset) equals
the configured hour; (2) no digest notification for the user exists with
`created_at` at or after `datetime.combine(date.today(), time.min, UTC)` —
the start of the current UTC day, not of the user-local day. -/

/-- Source `DailyDigestService._is_digest_time`. -/
def is_digest_time (prefs : UserPreferences) (now_utc : Instant) : Bool :=
  match prefs.daily_digest_time with
  | none => false
  | some h =>
      match prefs.timezone with
      | none => false
      | some off => instantHour (now_utc + off) == h

/-- Source `DailyDigestService._already_sent_today`. -/
def already_sent_today (db : DB) (user_id : String) (now : Instant) : Bool :=
  db.notifications.any (fun n => n.user_id == user_id &&
    n.type == NotificationType.daily_digest && decide (startOfUtcDay now ≤ n.created_at))

/-- The colored priority dot of the digest body. -/
def priorityDot : Priority → String
  | .high => "🔴"
  | .medium => "🟡"
  | .low => "🟢"

/-- Source `DailyDigestService._send_digest`. -/
def send_digest (now : Instant) (db : DB) (user_id : String) : DB :=
  let today := instantDay now
  let regular := db.todos.filter (fun t => t.user_id == user_id &&
    (match t.due_date with
      | some d => (d : Int) == today
      | none => false) && !t.completed)
  let occs := db.occurrences.filter (fun o => o.user_id == user_id &&
    ((o.occurrence_date : Int) == today) && o.status == OccurrenceStatus.pending)
  let recurring_ids := occs.map (·.parent_todo_id)
  let recurring := if recurring_ids.isEmpty then []
    else db.todos.filter (fun t => recurring_ids.contains t.id)
  let total := regular.length + recurring.length
  let titleBody :=
    if total == 0 then
      ("Daily Digest: No tasks due today", "You have no tasks due today. Enjoy your day!")
    else
      let title := "Daily Digest: " ++ toString total ++ " task" ++
        (if total != 1 then "s" else "") ++ " due today"
      let parts1 := (regular.take 5).map (fun t => "• " ++ t.title ++
        (match t.priority with
          | some p => " " ++ priorityDot p
          | none => ""))
      let parts2 := (recurring.take 5).map (fun t => "• " ++ t.title ++ " (recurring)")
      let shown := parts1 ++ parts2
      let remaining := total - shown.length
      let allParts := if 0 < remaining then
          shown ++ ["...and " ++ toString remaining ++ " more"]
        else shown
      (title, String.intercalate "\n" allParts)
  { db with notifications := db.notifications ++
      [{ user_id := user_id, type := .daily_digest, title := titleBody.1,
         body := titleBody.2, todo_id := none, reminder_id := none, read := false,
         created_at := now }] }

/-- The slice of one user of `DailyDigestService.process_daily_digests` at one
tick (the job loads exactly the preferences with the digest enabled and a
non-null digest time, then applies the two checks). -/
def process_digest_for_user (now : Instant) (db : DB) (prefs : UserPreferences) : DB :=
  if prefs.daily_digest_enabled && prefs.daily_digest_time.isSome then
    if is_digest_time prefs now then
      if already_sent_today db prefs.user_id now then db
      else send_digest now db prefs.user_id
    else db
  else db

/-- The hourly job observed over a list of tick instants, for one user. -/
def run_digest_ticks (prefs : UserPreferences) (db : DB) : List Instant → DB
  | [] => db
  | t :: ts => run_digest_ticks prefs (process_digest_for_user t db prefs) ts

/-- Number of digest notifications stored for a user. -/
def countUserDigests (db : DB) (user_id : String) : Nat :=
  (db.notifications.filter (fun n => n.user_id == user_id &&
    n.type == NotificationType.daily_digest)).length

/-- The skip threshold the SPEC describes (for comparison with the code):
the UTC instant at which the user-local day containing `t` begins, for a
fixed offset of `off` minutes. -/
def startOfLocalDaySpec (off : Int) (t : Instant) : Instant :=
  instantDay (t + off) * 1440 - off

theorem send_digest_appends (now : Instant) (db : DB) (uid : String) :
    ∃ n : Notification, (send_digest now db uid).notifications = db.notifications ++ [n] ∧
      n.user_id = uid ∧ n.type = NotificationType.daily_digest ∧ n.created_at = now :=
  ⟨_, rfl, rfl, rfl, rfl⟩

theorem process_digest_cases (now : Instant) (db : DB) (prefs : UserPreferences) :
    process_digest_for_user now db prefs = db ∨
    ∃ n : Notification, (process_digest_for_user now db prefs).notifications
        = db.notifications ++ [n] ∧ n.user_id = prefs.user_id ∧
        n.type = NotificationType.daily_digest ∧ n.created_at = now := by
  by_cases h1 : (prefs.daily_digest_enabled && prefs.daily_digest_time.isSome) = true
  · by_cases h2 : is_digest_time prefs now = true
    · by_cases h3 : already_sent_today db prefs.user_id now = true
      · left; simp [process_digest_for_user, h1, h2, h3]
      · right
        obtain ⟨n, hn, hu, ht, hc⟩ := send_digest_appends now db prefs.user_id
        refine ⟨n, ?_, hu, ht, hc⟩
        simpa [process_digest_for_user, h1, h2, h3] using hn
    · left; simp [process_digest_for_user, h1, h2]
  · left; simp [process_digest_for_user, h1]

theorem process_digest_blocked (now : Instant) (db : DB) (prefs : UserPreferences)
    (n : Notification) (hn : n ∈ db.notifications) (hu : n.user_id = prefs.user_id)
    (ht : n.type = NotificationType.daily_digest)
    (hc : startOfUtcDay now ≤ n.created_at) :
    process_digest_for_user now db prefs = db := by
  have hsent : already_sent_today db prefs.user_id now = true := by
    rw [already_sent_today, List.any_eq_true]
    exact ⟨n, hn, by simp [hu, ht, hc]⟩
  by_cases h1 : (prefs.daily_digest_enabled && prefs.daily_digest_time.isSome) = true
  · by_cases h2 : is_digest_time prefs now = true
    · simp [process_digest_for_user, h1, h2, hsent]
    · simp [process_digest_for_user, h1, h2]
  · simp [process_digest_for_user, h1]

theorem run_digest_blocked (prefs : UserPreferences) (D : Int) (n : Notification)
    (hu : n.user_id = prefs.user_id) (ht : n.type = NotificationType.daily_digest) :
    ∀ (ticks : List Instant) (db : DB), (∀ t ∈ ticks, instantDay t = D) →
      n ∈ db.notifications → D * 1440 ≤ n.created_at →
      run_digest_ticks prefs db ticks = db := by
  intro ticks
  induction ticks with
  | nil => intro db _ _ _; rfl
  | cons t ts ih =>
      intro db hday hmem hc
      have hstart : startOfUtcDay t = D * 1440 := by
        rw [startOfUtcDay, hday t (List.mem_cons_self t ts)]
      have hblock := process_digest_blocked t db prefs n hmem hu ht (by rw [hstart]; exact hc)
      rw [run_digest_ticks, hblock]
      exact ih db (fun x hx => hday x (List.mem_cons_of_mem t hx)) hmem hc

theorem run_digest_at_most_once (prefs : UserPreferences) (D : Int) :
    ∀ (ticks : List Instant) (db : DB), (∀ t ∈ ticks, instantDay t = D) →
      countUserDigests (run_digest_ticks prefs db ticks) prefs.user_id
        ≤ countUserDigests db prefs.user_id + 1 := by
  intro ticks
  induction ticks with
  | nil => intro db _; exact Nat.le_succ _
  | cons t ts ih =>
      intro db hday
      rw [run_digest_ticks]
      rcases process_digest_cases t db prefs with heq | ⟨n, hn, hu, ht, hc⟩
      · rw [heq]
        exact ih db (fun x hx => hday x (List.mem_cons_of_mem t hx))
      · have hDt : D * 1440 ≤ t := by
          have h := hday t (List.mem_cons_self t ts)
          rw [instantDay] at h
          have h2 := Int.ediv_add_emod t 1440
          have h3 := Int.emod_nonneg t (by norm_num : (1440 : Int) ≠ 0)
          have h4 : t / 1440 = D := h
          rw [h4] at h2
          omega
        have hrun : run_digest_ticks prefs (process_digest_for_user t db prefs) ts
            = process_digest_for_user t db prefs := by
          refine run_digest_blocked prefs D n hu ht ts _
            (fun x hx => hday x (List.mem_cons_of_mem t hx)) ?_ ?_
          · rw [hn]
            exact List.mem_append_right _ (List.mem_singleton_self n)
          · rw [hc]; exact hDt
        rw [hrun]
        have hcount : countUserDigests (process_digest_for_user t db prefs) prefs.user_id
            = countUserDigests db prefs.user_id + 1 := by
          simp [countUserDigests, hn, List.filter_append, hu, ht]
        rw [hcount]

/-- C7 amended.  The hourly digest job, per user with the digest enabled
and configured: it emits only at ticks whose instant, shifted by the user
offset, has local hour equal to the configured hour; it skips the user when
a digest notification already exists with `created_at` at or after the
start of today in UTC (the server day — not the user-local day, see the
counterexample); hence over any set of ticks falling within one UTC day at
most one digest notification is created for the user. -/
theorem digest_hour_gate_utc_dedup_at_most_once (prefs : UserPreferences) (db : DB)
    (now : Instant) (ticks : List Instant) (D : Int) :
    (∀ off h, prefs.timezone = some off → prefs.daily_digest_time = some h →
      instantHour (now + off) ≠ h → process_digest_for_user now db prefs = db) ∧
    ((∃ n ∈ db.notifications, n.user_id = prefs.user_id ∧
        n.type = NotificationType.daily_digest ∧ startOfUtcDay now ≤ n.created_at) →
      process_digest_for_user now db prefs = db) ∧
    ((∀ t ∈ ticks, instantDay t = D) →
      countUserDigests (run_digest_ticks prefs db ticks) prefs.user_id
        ≤ countUserDigests db prefs.user_id + 1) := by
  refine ⟨?_, ?_, ?_⟩
  · intro off h htz htime hne
    have hfalse : is_digest_time prefs now = false := by
      rw [is_digest_time, htime, htz]
      simpa using hne
    by_cases h1 : (prefs.daily_digest_enabled && prefs.daily_digest_time.isSome) = true
    · simp [process_digest_for_user, h1, hfalse]
    · simp [process_digest_for_user, h1]
  · intro ⟨n, hn, hu, ht, hc⟩
    exact process_digest_blocked now db prefs n hn hu ht hc
  · intro hday
    exact run_digest_at_most_once prefs D ticks db hday

def c7Prefs : UserPreferences :=
  { user_id := "u1", timezone := some 300, default_reminder_offset := none,
    push_enabled := true, daily_digest_enabled := true, daily_digest_time := some 7 }

def c7OldDigest : Notification :=
  { user_id := "u1", type := .daily_digest, title := "Daily Digest: No tasks due today",
    body := "You have no tasks due today. Enjoy your day!", todo_id := none,
    reminder_id := none, read := false, created_at := 14399760 }

def c7OldDB : DB :=
  { todos := [], occurrences := [], reminders := [], notifications := [c7OldDigest],
    subscriptions := [], tags := [], todo_tags := [] }

/-- C7 counterexample: the store already holds a digest for the user whose
`created_at` lies at or after the start of today in the user-local
timezone (UTC+5), and in the same local day as the tick — the claim says
the tick must skip the user — yet the job emits a second digest, because
the code compares against the start of the UTC day, which begins later. -/
theorem digest_dedup_uses_utc_day_counterexample :
    startOfLocalDaySpec 300 14400120 ≤ c7OldDigest.created_at ∧
    instantDay (c7OldDigest.created_at + 300) = instantDay ((14400120 : Int) + 300) ∧
    (process_digest_for_user 14400120 c7OldDB c7Prefs).notifications.length
      = c7OldDB.notifications.length + 1 := by
  decide

def c7WitDB : DB :=
  { todos := [], occurrences := [], reminders := [], notifications := [],
    subscriptions := [], tags := [], todo_tags := [] }

/-- C7 witness: at a tick whose UTC+5 local hour is 8 rather than the
configured 7 the job emits nothing, and two ticks inside UTC day 10000
produce at most one digest for the user. -/
theorem digest_hour_gate_utc_dedup_witness :
    process_digest_for_user 14400180 c7WitDB c7Prefs = c7WitDB ∧
    countUserDigests (run_digest_ticks c7Prefs c7WitDB [14400120, 14400180]) "u1"
      ≤ countUserDigests c7WitDB "u1" + 1 := by
  obtain ⟨h1, _, h3⟩ := digest_hour_gate_utc_dedup_at_most_once c7Prefs c7WitDB 14400180
    [14400120, 14400180] 10000
  exact ⟨h1 300 7 rfl rfl (by decide), h3 (by decide)⟩
